import Mathlib

/-!
Verification development for the Romulus repository: a small HTTP API and CLI
layer over flat-file JSON state (pack/wolf registry, credit ledger, bounty
board, activity feed) plus an on-chain memo proof.  JavaScript code is shallowly
embedded: each stateful method becomes a pure function from the in-memory state
(and the inputs the code reads from the environment: timestamps, random ids,
RPC responses, request headers) to the result, the new in-memory state, and the
file write it performs, written as the parsed value the serialized JSON
denotes.  Nondeterministic sources (Date.now, crypto.randomBytes, the Solana
RPC) are passed as explicit arguments.
-/

namespace Romulus

/-! ## Generic helpers -/

/-- JavaScript string truthiness for a possibly-absent string: `undefined` and
the empty string are falsy. -/
def jsTruthy : Option String → Bool
  | none => false
  | some s => s ≠ ""

/-- JavaScript `a || b` for strings, where the empty string is falsy. -/
def jsOr (a b : String) : String :=
  if a = "" then b else a

/-- Character-based take (JS `slice`/`substring` on the front). -/
def strTake (s : String) (n : Nat) : String := String.mk (s.data.take n)

/-- Character-based drop (JS `slice(n)`). -/
def strDrop (s : String) (n : Nat) : String := String.mk (s.data.drop n)

/-- Last `n` characters (JS `slice(-n)`). -/
def strTakeRight (s : String) (n : Nat) : String :=
  String.mk (s.data.drop (s.data.length - n))

/-- `p` begins `s` (JS `startsWith`). -/
def strStartsWith (s p : String) : Bool := p.data.isPrefixOf s.data

/-- Update the first element of a list satisfying `p` (JS pattern: grab an
object with `find` and mutate it in place). -/
def updateFirst (p : α → Bool) (f : α → α) : List α → List α
  | [] => []
  | a :: as => if p a then f a :: as else a :: updateFirst p f as

theorem length_updateFirst (p : α → Bool) (f : α → α) (l : List α) :
    (updateFirst p f l).length = l.length := by
  induction l with
  | nil => rfl
  | cons a as ih =>
    simp only [updateFirst]
    by_cases h : p a <;> simp [h, ih]

theorem find?_updateFirst (p : α → Bool) (f : α → α) (l : List α) (a : α)
    (h : l.find? p = some a) (hf : p (f a) = true) :
    (updateFirst p f l).find? p = some (f a) := by
  induction l with
  | nil => simp at h
  | cons b bs ih =>
    by_cases hb : p b
    · rw [List.find?_cons_of_pos _ hb] at h
      cases h
      simp [updateFirst, hb, List.find?_cons_of_pos _ hf]
    · rw [List.find?_cons_of_neg _ hb] at h
      simp only [updateFirst, if_neg hb]
      rw [List.find?_cons_of_neg _ hb]
      exact ih h

theorem mem_updateFirst (p : α → Bool) (f : α → α) (l : List α) (b : α)
    (h : b ∈ updateFirst p f l) :
    b ∈ l ∨ ∃ a, a ∈ l ∧ p a = true ∧ b = f a := by
  induction l with
  | nil => simp [updateFirst] at h
  | cons c cs ih =>
    simp only [updateFirst] at h
    by_cases hc : p c
    · rw [if_pos hc] at h
      rcases List.mem_cons.mp h with h1 | h2
      · exact Or.inr ⟨c, List.mem_cons_self .., hc, h1⟩
      · exact Or.inl (List.mem_cons_of_mem _ h2)
    · rw [if_neg hc] at h
      rcases List.mem_cons.mp h with h1 | h2
      · exact Or.inl (h1 ▸ List.mem_cons_self ..)
      · rcases ih h2 with h3 | ⟨a, ha, hpa, hb⟩
        · exact Or.inl (List.mem_cons_of_mem _ h3)
        · exact Or.inr ⟨a, List.mem_cons_of_mem _ ha, hpa, hb⟩

/-- First-match lookup in an association list (JS object property read). -/
def assocLookup (l : List (String × String)) (k : String) : Option String :=
  (l.find? (fun kv => kv.1 = k)).map (·.2)

/-- JS object property write: replace an existing binding or append a new one. -/
def assocSet (l : List (String × String)) (k v : String) : List (String × String) :=
  match l with
  | [] => [(k, v)]
  | kv :: rest => if kv.1 = k then (k, v) :: rest else kv :: assocSet rest k v

theorem assocLookup_assocSet_self (l : List (String × String)) (k v : String) :
    assocLookup (assocSet l k v) k = some v := by
  induction l with
  | nil => simp [assocSet, assocLookup]
  | cons kv rest ih =>
    simp only [assocSet]
    by_cases h : kv.1 = k
    · simp [assocLookup, h]
    · simp only [if_neg h, assocLookup]
      rw [List.find?_cons_of_neg _ (by simp [h])]
      exact ih

theorem assocLookup_assocSet_ne (l : List (String × String)) (k v k' : String)
    (h : k' ≠ k) : assocLookup (assocSet l k v) k' = assocLookup l k' := by
  induction l with
  | nil => simp [assocSet, assocLookup, Ne.symm h]
  | cons kv rest ih =>
    simp only [assocSet]
    by_cases hk : kv.1 = k
    · simp only [if_pos hk, assocLookup]
      rw [List.find?_cons_of_neg _ (by simp [Ne.symm h]),
        List.find?_cons_of_neg _ (by simp [hk, Ne.symm h])]
    · simp only [if_neg hk, assocLookup]
      by_cases hk' : kv.1 = k'
      · rw [List.find?_cons_of_pos _ (by simp [hk']),
          List.find?_cons_of_pos _ (by simp [hk'])]
      · rw [List.find?_cons_of_neg _ (by simp [hk']),
          List.find?_cons_of_neg _ (by simp [hk'])]
        exact ih

/-! ## SHA-256 (Node `crypto.createHash('sha256')`), executable -/

/-- Truncate to a 32-bit word. -/
def w32 (n : Nat) : Nat := n % 4294967296

def rotr32 (n x : Nat) : Nat :=
  w32 ((x >>> n) ||| (x <<< (32 - n)))

def sha256K : List Nat :=
  [1116352408, 1899447441, 3049323471, 3921009573, 961987163,
   1508970993, 2453635748, 2870763221, 3624381080, 310598401,
   607225278, 1426881987, 1925078388, 2162078206, 2614888103,
   3248222580, 3835390401, 4022224774, 264347078, 604807628,
   770255983, 1249150122, 1555081692, 1996064986, 2554220882,
   2821834349, 2952996808, 3210313671, 3336571891, 3584528711,
   113926993, 338241895, 666307205, 773529912, 1294757372,
   1396182291, 1695183700, 1986661051, 2177026350, 2456956037,
   2730485921, 2820302411, 3259730800, 3345764771, 3516065817,
   3600352804, 4094571909, 275423344, 430227734, 506948616,
   659060556, 883997877, 958139571, 1322822218, 1537002063,
   1747873779, 1955562222, 2024104815, 2227730452, 2361852424,
   2428436474, 2756734187, 3204031479, 3329325298]

def sha256H0 : List Nat :=
  [1779033703, 3144134277, 1013904242, 2773480762, 1359893119,
   2600822924, 528734635, 1541459225]

def bigSigma0 (x : Nat) : Nat := (rotr32 2 x) ^^^ (rotr32 13 x) ^^^ (rotr32 22 x)
def bigSigma1 (x : Nat) : Nat := (rotr32 6 x) ^^^ (rotr32 11 x) ^^^ (rotr32 25 x)
def smallSigma0 (x : Nat) : Nat := (rotr32 7 x) ^^^ (rotr32 18 x) ^^^ (x >>> 3)
def smallSigma1 (x : Nat) : Nat := (rotr32 17 x) ^^^ (rotr32 19 x) ^^^ (x >>> 10)

/-- Extend the 16-word block to the 64-word message schedule; `n` counts the
words still to add. -/
def extendSchedule : List Nat → Nat → List Nat
  | ws, 0 => ws
  | ws, n + 1 =>
    let i := ws.length
    let next := w32 (smallSigma1 (ws.getD (i - 2) 0) + ws.getD (i - 7) 0 +
      smallSigma0 (ws.getD (i - 15) 0) + ws.getD (i - 16) 0)
    extendSchedule (ws ++ [next]) n

/-- One compression round per `(k, w)` pair. -/
def compressRounds : List (Nat × Nat) →
    Nat × Nat × Nat × Nat × Nat × Nat × Nat × Nat →
    Nat × Nat × Nat × Nat × Nat × Nat × Nat × Nat
  | [], st => st
  | (k, w) :: rest, (a, b, c, d, e, f, g, h) =>
    let ch := (e &&& f) ^^^ ((4294967295 - e) &&& g)
    let t1 := w32 (h + bigSigma1 e + ch + k + w)
    let maj := (a &&& b) ^^^ (a &&& c) ^^^ (b &&& c)
    let t2 := w32 (bigSigma0 a + maj)
    compressRounds rest (w32 (t1 + t2), a, b, c, w32 (d + t1), e, f, g)

/-- Bytes of one 64-byte chunk to 16 big-endian 32-bit words. -/
def chunkWords : List Nat → List Nat
  | b0 :: b1 :: b2 :: b3 :: rest =>
    (((b0 * 256 + b1) * 256 + b2) * 256 + b3) :: chunkWords rest
  | _ => []

def sha256Compress (hs : List Nat) (chunk : List Nat) : List Nat :=
  let ws := extendSchedule (chunkWords chunk) 48
  match hs with
  | [h0, h1, h2, h3, h4, h5, h6, h7] =>
    let (a, b, c, d, e, f, g, h) :=
      compressRounds (sha256K.zip ws) (h0, h1, h2, h3, h4, h5, h6, h7)
    [w32 (h0 + a), w32 (h1 + b), w32 (h2 + c), w32 (h3 + d),
     w32 (h4 + e), w32 (h5 + f), w32 (h6 + g), w32 (h7 + h)]
  | other => other

/-- Split the padded message into 64-byte chunks and fold the compression. -/
def sha256Chunks (hs : List Nat) (bytes : List Nat) (fuel : Nat) : List Nat :=
  match fuel with
  | 0 => hs
  | fuel + 1 =>
    match bytes with
    | [] => hs
    | _ => sha256Chunks (sha256Compress hs (bytes.take 64)) (bytes.drop 64) fuel

/-- Big-endian bytes of `n`, `k` bytes wide. -/
def beBytes (n k : Nat) : List Nat :=
  match k with
  | 0 => []
  | k + 1 => beBytes (n / 256) k ++ [n % 256]

/-- SHA-256 padding: append 0x80, zero-fill to 56 mod 64, append the 64-bit
big-endian bit length. -/
def sha256Pad (msg : List Nat) : List Nat :=
  let l := msg.length
  let padLen := (119 - l % 64) % 64 + 1
  msg ++ (128 :: List.replicate (padLen - 1) 0) ++ beBytes (8 * l) 8

def sha256Words (msg : List Nat) : List Nat :=
  let padded := sha256Pad msg
  sha256Chunks sha256H0 padded (padded.length / 64 + 1)

def hexDigit (n : Nat) : Char :=
  if n < 10 then Char.ofNat (48 + n) else Char.ofNat (87 + n)

/-- Lower-case hex digits of `n`, `k` digits wide. -/
def hexChars (n k : Nat) : List Char :=
  match k with
  | 0 => []
  | k + 1 => hexChars (n / 16) k ++ [hexDigit (n % 16)]

/-- Lower-case hex of `n`, `k` digits wide. -/
def hexPad (n k : Nat) : String :=
  String.mk (hexChars n k)

/-- UTF-8 bytes of one code point. -/
def utf8Bytes (c : Nat) : List Nat :=
  if c < 128 then [c]
  else if c < 2048 then [192 + c / 64, 128 + c % 64]
  else if c < 65536 then [224 + c / 4096, 128 + c / 64 % 64, 128 + c % 64]
  else [240 + c / 262144, 128 + c / 4096 % 64, 128 + c / 64 % 64, 128 + c % 64]

def strBytes (s : String) : List Nat :=
  (s.data.map (fun c => utf8Bytes c.toNat)).flatten

/-- Hex digest of SHA-256 of a string, as produced by
`crypto.createHash('sha256').update(data).digest('hex')`. -/
def sha256hex (s : String) : String :=
  String.mk (((sha256Words (strBytes s)).map (fun wrd => hexChars wrd 8)).flatten)

/-- Known-answer test: FIPS 180-2 vector for the string "abc". -/
theorem sha256hex_abc :
    sha256hex "abc" =
      "ba7816bf8f01cfea414140de5dae2223b00361a396177a9cb410ff61f20015ad" := by
  decide

/-! ## JSON string serialization (`JSON.stringify` applied to a string value) -/

def jsonEscapeChar (c : Char) : String :=
  if c = Char.ofNat 34 then "\\\""
  else if c = Char.ofNat 92 then "\\\\"
  else if c.toNat = 8 then "\\b"
  else if c.toNat = 9 then "\\t"
  else if c.toNat = 10 then "\\n"
  else if c.toNat = 12 then "\\f"
  else if c.toNat = 13 then "\\r"
  else if c.toNat < 32 then "\\u" ++ hexPad c.toNat 4
  else String.singleton c

/-- `JSON.stringify(s)` for a string `s`: double quotes around the escaped
characters. -/
def jsonStringifyString (s : String) : String :=
  "\"" ++ String.join (s.data.map jsonEscapeChar) ++ "\""

/-! ## PaymentGate (`src/sdk/payment-gate.js`)

The keys JSON file parses to a `KeysState`; `issued` keeps insertion order.
SOL amounts are exact rationals (lamports / 10^9); credits are integers. -/

def TREASURY_WALLET : String := "FkjfuNd1pvKLPzQWm77WfRy1yNWRhqbBPt9EexuvvmCD"

def CREDITS_PER_SOL : Int := 500

def LAMPORTS_PER_SOL : Int := 1000000000

/-- `MIN_PURCHASE_SOL = 0.05` SOL, held exactly in lamports. -/
def MIN_PURCHASE_LAMPORTS : Int := 50000000

/-- `COSTS[operation] || 1`: cost per operation in credits.  All table values
are nonzero, so the `|| 1` default fires exactly when the key is absent. -/
def costOf (operation : String) : Int :=
  if operation = "wolf_spawn" then 1
  else if operation = "bounty_post" then 1
  else if operation = "proof_anchor" then 2
  else if operation = "agent_hire" then 1
  else 1

structure KeyRecord where
  apiKey : String
  payerWallet : String
  credits : Int
  /-- total SOL paid, held exactly in lamports -/
  totalPurchased : Int
  totalUsed : Int
  issuedAt : String
  lastTopUp : Option String
  status : String
  txHistory : List String
  deriving Repr, DecidableEq

structure KeysState where
  issued : List KeyRecord
  revoked : List KeyRecord
  transactions : List String
  walletToKey : List (String × String)
  txToKey : List (String × String)
  deriving Repr, DecidableEq

/-- The record `useCredits`/`validateKey`/`checkCredits` look up:
`this.keys.issued.find(k => k.apiKey === apiKey && k.status === 'active')`.
The probed key is `Option String` because the route may pass `undefined`. -/
def findActive (ks : KeysState) (apiKey : Option String) : Option KeyRecord :=
  ks.issued.find? (fun r => apiKey = some r.apiKey && r.status = "active")

/-- `masterKey && apiKey === masterKey` (the env variable is falsy when unset
or empty). -/
def isMasterCall (masterKey apiKey : Option String) : Bool :=
  jsTruthy masterKey && apiKey = masterKey

inductive UseCreditsResult
  /-- `{ success: true, isMaster: true, remaining: Infinity }` -/
  | masterOk
  /-- `{ success: false, error: 'Invalid API key' }` -/
  | invalidKey
  /-- `{ success: false, error: 'Insufficient credits...', credits, needed }` -/
  | insufficient (credits needed : Int)
  /-- `{ success: true, creditsUsed, remaining }` -/
  | ok (creditsUsed remaining : Int)
  deriving Repr, DecidableEq

def UseCreditsResult.success : UseCreditsResult → Bool
  | .masterOk => true
  | .ok _ _ => true
  | _ => false

/-- The in-place mutation `record.credits -= cost; record.totalUsed += cost`
on the record `useCredits` found. -/
def deductState (ks : KeysState) (apiKey : Option String) (cost : Int) : KeysState :=
  { ks with issued :=
    (updateFirst
      (fun r => apiKey = some r.apiKey && r.status = "active")
      (fun r => { r with credits := r.credits - cost,
                         totalUsed := r.totalUsed + cost })
      ks.issued) }

/-- `PaymentGate.useCredits(apiKey, operation)`.  Returns the result, the new
in-memory keys state, and the file write performed (`saveKeys` serializes the
whole of `this.keys`), if any. -/
def useCredits (masterKey : Option String) (ks : KeysState) (apiKey : Option String)
    (operation : String) : UseCreditsResult × KeysState × Option KeysState :=
  let cost := costOf operation
  if isMasterCall masterKey apiKey then
    (.masterOk, ks, none)
  else
    match findActive ks apiKey with
    | none => (.invalidKey, ks, none)
    | some record =>
      if record.credits < cost then
        (.insufficient record.credits cost, ks, none)
      else
        let ks' := deductState ks apiKey cost
        (.ok cost (record.credits - cost), ks', some ks')

/-- `PaymentGate.checkCredits(apiKey)` (read-only). -/
def checkCredits (masterKey : Option String) (ks : KeysState) (apiKey : Option String) :
    Option (Int × Int × Int) :=
  if isMasterCall masterKey apiKey then none
  else (findActive ks apiKey).map (fun r => (r.credits, r.totalPurchased, r.totalUsed))

inductive ValidateResult
  | masterValid
  | recordValid (record : KeyRecord)
  | revokedKey
  | invalid
  deriving Repr, DecidableEq

def ValidateResult.valid : ValidateResult → Bool
  | .masterValid => true
  | .recordValid _ => true
  | _ => false

/-- `PaymentGate.validateKey(apiKey)`. -/
def validateKey (masterKey : Option String) (ks : KeysState) (apiKey : Option String) :
    ValidateResult :=
  if isMasterCall masterKey apiKey then .masterValid
  else
    match findActive ks apiKey with
    | some record => .recordValid record
    | none =>
      match ks.revoked.find? (fun r => apiKey = some r.apiKey) with
      | some _ => .revokedKey
      | none => .invalid

/-- What the Solana RPC `getTransaction` round trip can yield inside
`verifyPayment` (the fetch itself and JSON decoding are black boxes; their
outcome is an input). -/
inductive RpcResult
  /-- the `fetch`/`response.json()` threw; caught by the surrounding try -/
  | fetchError (msg : String)
  /-- `data.error` present -/
  | rpcError (msg : String)
  /-- `data.result` null: not found yet -/
  | noResult
  /-- a transaction, with `meta.err` flag, balances and account keys -/
  | tx (err : Bool) (preBalances postBalances : List Int) (accountKeys : List String)

inductive VerifyError
  | alreadyUsed
  | verificationFailed (msg : String)
  | rpcFailed (msg : String)
  | notFound
  | failedOnChain
  | notToTreasury
  | belowMinimum (amountLamports : Int)
  deriving Repr, DecidableEq

/-- The `error` strings `verifyPayment` produces (the below-minimum message
interpolates the received amount; we keep its fixed head). -/
def VerifyError.message : VerifyError → String
  | .alreadyUsed => "Transaction already used"
  | .verificationFailed msg => "Verification failed: " ++ msg
  | .rpcFailed msg => "RPC error: " ++ msg
  | .notFound => "Transaction not found (may need a few seconds to confirm)"
  | .failedOnChain => "Transaction failed on-chain"
  | .notToTreasury => "Payment must be sent to treasury: " ++ TREASURY_WALLET
  | .belowMinimum _ => "Minimum purchase is 0.05 SOL"

inductive VerifyResult
  | invalid (error : VerifyError)
  /-- `{ valid: true, amountSOL, payerWallet }`, the amount in exact lamports -/
  | valid (amountLamports : Int) (payerWallet : String)
  deriving Repr, DecidableEq

/-- Index of the last occurrence of `x` (the source loop keeps overwriting
`treasuryIndex` on every match). -/
def lastIdxOf (l : List String) (x : String) : Option Nat :=
  ((l.zip (List.range l.length)).filter (fun p => p.1 = x)).getLast?.map (·.2)

/-- `PaymentGate.verifyPayment(txSignature)`, with the RPC outcome passed in. -/
def verifyPayment (ks : KeysState) (rpc : RpcResult) (txSignature : String) :
    VerifyResult :=
  if ks.transactions.contains txSignature then .invalid .alreadyUsed
  else
    match rpc with
    | .fetchError msg => .invalid (.verificationFailed msg)
    | .rpcError msg => .invalid (.rpcFailed msg)
    | .noResult => .invalid .notFound
    | .tx err preBalances postBalances accountKeys =>
      if err then .invalid .failedOnChain
      else
        let payerWallet := accountKeys.headD ""
        match lastIdxOf accountKeys TREASURY_WALLET with
        | none => .invalid .notToTreasury
        | some treasuryIndex =>
          let amountLamports :=
            postBalances.getD treasuryIndex 0 - preBalances.getD treasuryIndex 0
          if amountLamports < MIN_PURCHASE_LAMPORTS then
            .invalid (.belowMinimum amountLamports)
          else .valid amountLamports payerWallet

inductive PurchaseResult
  | failure (error : String)
  /-- success; `apiKey` is the key credited (reused on top-up, fresh otherwise),
  `creditsAdded` the credits granted by this purchase, `newKey` whether a new
  key record was issued -/
  | purchased (apiKey : String) (creditsAdded : Int) (newKey : Bool)
  deriving Repr, DecidableEq

/-- `Math.floor(amountSOL * CREDITS_PER_SOL)` with the amount held in
lamports. -/
def creditsFromLamports (amountLamports : Int) : Int :=
  (amountLamports * CREDITS_PER_SOL).fdiv LAMPORTS_PER_SOL

/-- The in-place mutation the auto-top-up branch performs on the existing
active record. -/
def topUpRecord (creditsToAdd amountLamports : Int) (txSignature now : String)
    (r : KeyRecord) : KeyRecord :=
  { r with credits := r.credits + creditsToAdd,
           totalPurchased := r.totalPurchased + amountLamports,
           lastTopUp := some now,
           txHistory := r.txHistory ++ [txSignature] }

/-- The fresh key record the new-wallet branch issues. -/
def newKeyRecord (creditsToAdd amountLamports : Int)
    (payerWallet txSignature now rand : String) : KeyRecord :=
  { apiKey := "rml_" ++ rand,
    payerWallet := payerWallet,
    credits := creditsToAdd,
    totalPurchased := amountLamports,
    totalUsed := 0,
    issuedAt := now,
    lastTopUp := none,
    status := "active",
    txHistory := [txSignature] }

/-- `PaymentGate.purchaseCredits(txSignature)`.  `now` stands for
`new Date().toISOString()` and `rand` for the hex of `crypto.randomBytes(24)`
inside `generateApiKey`. -/
def purchaseCredits (ks : KeysState) (rpc : RpcResult) (txSignature now rand : String) :
    PurchaseResult × KeysState × Option KeysState :=
  match verifyPayment ks rpc txSignature with
  | .invalid e => (.failure e.message, ks, none)
  | .valid amountLamports payerWallet =>
    if payerWallet = "" then
      (.failure "Could not determine payer wallet from transaction", ks, none)
    else
      let creditsToAdd : Int := creditsFromLamports amountLamports
      let ks1 := { ks with transactions := ks.transactions ++ [txSignature] }
      let existingApiKey := assocLookup ks1.walletToKey payerWallet
      match existingApiKey with
      | some k =>
        if k ≠ "" ∧ (findActive ks1 (some k)).isSome then
          -- auto top-up of the existing key
          let ks2 := { ks1 with
            issued := (updateFirst
              (fun r => some k = some r.apiKey && r.status = "active")
              (topUpRecord creditsToAdd amountLamports txSignature now)
              ks1.issued),
            txToKey := assocSet ks1.txToKey txSignature k }
          (.purchased k creditsToAdd false, ks2, some ks2)
        else
          purchaseNewKey ks1 amountLamports payerWallet txSignature now rand creditsToAdd
      | none =>
        purchaseNewKey ks1 amountLamports payerWallet txSignature now rand creditsToAdd
where
  /-- the fall-through of `purchaseCredits`: mint a fresh key record -/
  purchaseNewKey (ks1 : KeysState) (amountLamports : Int)
      (payerWallet txSignature now rand : String) (creditsToAdd : Int) :
      PurchaseResult × KeysState × Option KeysState :=
    let apiKey := "rml_" ++ rand
    let keyRecord := newKeyRecord creditsToAdd amountLamports payerWallet
      txSignature now rand
    let ks2 := { ks1 with
      txToKey := assocSet ks1.txToKey txSignature apiKey,
      walletToKey := assocSet ks1.walletToKey payerWallet apiKey,
      issued := ks1.issued ++ [keyRecord] }
    (.purchased apiKey creditsToAdd true, ks2, some ks2)

/-! ## RomulusClient (`src/sdk/romulus-client.js`)

The packs registry JSON file parses to a `Registry`. -/

structure Wolf where
  id : String
  packId : String
  type : String
  task : String
  status : String
  spawnedAt : Nat
  completedAt : Option Nat
  result : Option String
  deriving Repr, DecidableEq

structure PackStats where
  wolvesSpawned : Nat
  huntsCompleted : Nat
  totalTokens : Nat
  deriving Repr, DecidableEq

structure Pack where
  id : String
  name : String
  alpha : String
  treasury : Option String
  description : String
  apiKey : String
  createdAt : Nat
  stats : PackStats
  wolves : List Wolf
  deriving Repr, DecidableEq

structure Registry where
  packs : List Pack
  totalWolvesSpawned : Nat
  totalHunts : Nat
  deriving Repr, DecidableEq

structure PackConfig where
  name : String
  alpha : String
  treasury : Option String
  description : String
  deriving Repr, DecidableEq

/-- `RomulusClient.registerPack(packConfig)`; `packId`/`apiKey` stand for the
timestamp-and-random identifiers, `createdAt` for `Date.now()`. -/
def registerPack (reg : Registry) (packConfig : PackConfig)
    (packId apiKey : String) (createdAt : Nat) :
    (String × String) × Registry × Option Registry :=
  let pack : Pack := {
    id := packId,
    name := packConfig.name,
    alpha := packConfig.alpha,
    treasury := packConfig.treasury,
    description := packConfig.description,
    apiKey := apiKey,
    createdAt := createdAt,
    stats := { wolvesSpawned := 0, huntsCompleted := 0, totalTokens := 0 },
    wolves := [] }
  let reg' := { reg with packs := reg.packs ++ [pack] }
  ((packId, apiKey), reg', some reg')

/-- `RomulusClient.getPack(identifier)`: by id or API key. -/
def getPack (reg : Registry) (identifier : String) : Option Pack :=
  reg.packs.find? (fun p => p.id = identifier || p.apiKey = identifier)

structure WolfConfig where
  /-- empty string models an absent/falsy `type` (default `'custom'`) -/
  type : String
  task : String
  /-- empty string models an absent/falsy `model` -/
  model : String
  deriving Repr, DecidableEq

/-- `RomulusClient.buildWolfPrompt(pack, wolf)`. -/
def buildWolfPrompt (pack : Pack) (wolf : Wolf) : String :=
  let typeEmoji :=
    if wolf.type = "research" then "🔬"
    else if wolf.type = "scout" then "👁️"
    else if wolf.type = "builder" then "🔧"
    else if wolf.type = "custom" then "🐺"
    else "🐺"
  typeEmoji ++ " ROMULUS WOLF ACTIVATED\n\n" ++
  "You are a " ++ wolf.type ++ " wolf in the \"" ++ pack.name ++ "\" pack.\n" ++
  "Alpha: " ++ pack.alpha ++ "\n" ++
  "Pack ID: " ++ pack.id ++ "\n" ++
  "Wolf ID: " ++ wolf.id ++ "\n\n" ++
  "MISSION: " ++ wolf.task ++ "\n\n" ++
  "PROTOCOL:\n" ++
  "- Execute your mission efficiently\n" ++
  "- Report findings clearly\n" ++
  "- You are part of a coordinated pack\n\n" ++
  (if wolf.type = "research" then "Focus on accurate intel and actionable insights." else "") ++ "\n" ++
  (if wolf.type = "scout" then "Focus on signals, opportunities, and threats." else "") ++ "\n" ++
  (if wolf.type = "builder" then "Focus on creating working deliverables." else "") ++ "\n\n" ++
  "🐺 Romulus Protocol v1 | Pack: " ++ pack.name

structure SpawnConfig where
  task : String
  label : String
  model : String
  deriving Repr, DecidableEq

inductive SpawnResult
  | packNotFound
  | spawned (wolfId packId packName : String) (spawnConfig : SpawnConfig)
  deriving Repr, DecidableEq

/-- `RomulusClient.spawnWolf(packId, wolfConfig)`; `wolfId` stands for the
generated wolf identifier and `now` for `Date.now()`. -/
def spawnWolf (reg : Registry) (identifier : String) (wolfConfig : WolfConfig)
    (wolfId : String) (now : Nat) : SpawnResult × Registry × Option Registry :=
  match getPack reg identifier with
  | none => (.packNotFound, reg, none)
  | some pack =>
    let wolf : Wolf := {
      id := wolfId,
      packId := pack.id,
      type := jsOr wolfConfig.type "custom",
      task := wolfConfig.task,
      status := "spawned",
      spawnedAt := now,
      completedAt := none,
      result := none }
    let packPred := fun (p : Pack) => p.id = identifier || p.apiKey = identifier
    let updatePack := fun (p : Pack) => { p with
      wolves := p.wolves ++ [wolf],
      stats := { p.stats with wolvesSpawned := p.stats.wolvesSpawned + 1 } }
    let reg' := { reg with
      packs := updateFirst packPred updatePack reg.packs,
      totalWolvesSpawned := reg.totalWolvesSpawned + 1 }
    let spawnConfig : SpawnConfig := {
      task := buildWolfPrompt (updatePack pack) wolf,
      label := pack.name ++ "-" ++ wolf.type ++ "-" ++ strTakeRight wolfId 6,
      model := jsOr wolfConfig.model "anthropic/claude-sonnet-4" }
    (.spawned wolfId pack.id pack.name spawnConfig, reg', some reg')

/-- `result.substring(0, 1000)`: the truncation in `completeHunt`. -/
def jsTruncate (s : String) (n : Nat) : String :=
  String.mk (s.data.take n)

inductive HuntResult
  | wolfNotFound
  | completed (wolfId packId : String)
  deriving Repr, DecidableEq

/-- The loop body of `completeHunt`: walk the packs, update the first pack
containing the wolf. -/
def completeHuntPacks (wolfId resultText : String) (now : Nat) :
    List Pack → Option (String × List Pack)
  | [] => none
  | pack :: rest =>
    if (pack.wolves.find? (fun w => w.id = wolfId)).isSome then
      let updatedPack := { pack with
        wolves := (updateFirst (fun w => w.id = wolfId)
          (fun w => { w with status := "completed", completedAt := some now,
                             result := some (jsTruncate resultText 1000) })
          pack.wolves),
        stats := { pack.stats with huntsCompleted := pack.stats.huntsCompleted + 1 } }
      some (pack.id, updatedPack :: rest)
    else
      (completeHuntPacks wolfId resultText now rest).map
        (fun pr => (pr.1, pack :: pr.2))

/-- `RomulusClient.completeHunt(wolfId, result)`. -/
def completeHunt (reg : Registry) (wolfId resultText : String) (now : Nat) :
    HuntResult × Registry × Option Registry :=
  match completeHuntPacks wolfId resultText now reg.packs with
  | none => (.wolfNotFound, reg, none)
  | some (packId, packs') =>
    let reg' := { reg with packs := packs', totalHunts := reg.totalHunts + 1 }
    (.completed wolfId packId, reg', some reg')

/-! ## BountyBoard (`src/sdk/bounty-board.js`) -/

structure BountyProof where
  submittedAt : String
  /-- the request `proof.data`, represented by its JSON serialization -/
  data : String
  hash : String
  links : List String
  notes : String
  deriving Repr, DecidableEq

structure Bounty where
  id : String
  title : String
  description : String
  type : String
  reward : ℚ
  poster : String
  posterWallet : Option String
  requirements : List String
  deadline : Option String
  status : String
  claimedBy : Option String
  claimedWallet : Option String
  claimedAt : Option String
  completedAt : Option String
  proof : Option BountyProof
  createdAt : String
  verifiedBy : Option String
  deriving Repr, DecidableEq

structure BountyReg where
  bounties : List Bounty
  totalPosted : Nat
  totalCompleted : Nat
  totalPaidOut : ℚ
  deriving Repr, DecidableEq

structure BountyConfig where
  title : String
  description : String
  type : String
  reward : ℚ
  poster : String
  posterWallet : Option String
  requirements : List String
  deadline : Option String
  deriving Repr, DecidableEq

inductive BountyResult
  | failure (error : String)
  | ok (bounty : Bounty)
  deriving Repr, DecidableEq

def BountyResult.success : BountyResult → Bool
  | .ok _ => true
  | .failure _ => false

/-- `BountyBoard.postBounty(bountyConfig)`; `bountyId` stands for the generated
id, `now` for `new Date().toISOString()`. -/
def postBounty (reg : BountyReg) (bountyConfig : BountyConfig)
    (bountyId now : String) : BountyResult × BountyReg × Option BountyReg :=
  let bounty : Bounty := {
    id := bountyId,
    title := bountyConfig.title,
    description := bountyConfig.description,
    type := bountyConfig.type,
    reward := bountyConfig.reward,
    poster := bountyConfig.poster,
    posterWallet := bountyConfig.posterWallet,
    requirements := bountyConfig.requirements,
    deadline := bountyConfig.deadline,
    status := "open",
    claimedBy := none,
    claimedWallet := none,
    claimedAt := none,
    completedAt := none,
    proof := none,
    createdAt := now,
    verifiedBy := none }
  let reg' := { reg with bounties := reg.bounties ++ [bounty],
                         totalPosted := reg.totalPosted + 1 }
  (.ok bounty, reg', some reg')

def findBounty (reg : BountyReg) (bountyId : String) : Option Bounty :=
  reg.bounties.find? (fun b => b.id = bountyId)

/-- The in-place mutation `claimBounty` performs on an open bounty. -/
def claimUpdate (wolfId : String) (wolfWallet : Option String) (now : String)
    (b : Bounty) : Bounty :=
  { b with status := "claimed", claimedBy := some wolfId,
           claimedWallet := wolfWallet, claimedAt := some now }

/-- `BountyBoard.claimBounty(bountyId, wolfId, wolfWallet)`. -/
def claimBounty (reg : BountyReg) (bountyId wolfId : String)
    (wolfWallet : Option String) (now : String) :
    BountyResult × BountyReg × Option BountyReg :=
  match findBounty reg bountyId with
  | none => (.failure "bounty not found", reg, none)
  | some bounty =>
    if bounty.status ≠ "open" then
      (.failure ("bounty is " ++ bounty.status), reg, none)
    else
      let reg' := { reg with
        bounties := updateFirst (fun b => b.id = bountyId)
          (claimUpdate wolfId wolfWallet now) reg.bounties }
      (.ok (claimUpdate wolfId wolfWallet now bounty), reg', some reg')

/-- The in-place mutation `submitCompletion` performs on a claimed bounty:
status `pending_verification` plus the stored proof (whose `hash` is the
SHA-256 of the JSON-serialized proof data). -/
def submitUpdate (proofData : String) (proofLinks : List String)
    (proofNotes : String) (now : String) (b : Bounty) : Bounty :=
  { b with
    status := "pending_verification",
    proof := some {
      submittedAt := now,
      data := proofData,
      hash := sha256hex proofData,
      links := proofLinks,
      notes := proofNotes } }

/-- `BountyBoard.submitCompletion(bountyId, wolfId, proof)`. -/
def submitCompletion (reg : BountyReg) (bountyId wolfId : String)
    (proofData : String) (proofLinks : List String) (proofNotes : String)
    (now : String) : BountyResult × BountyReg × Option BountyReg :=
  match findBounty reg bountyId with
  | none => (.failure "bounty not found", reg, none)
  | some bounty =>
    if bounty.status ≠ "claimed" then
      (.failure ("bounty is " ++ bounty.status), reg, none)
    else if bounty.claimedBy ≠ some wolfId then
      (.failure "not your bounty to complete", reg, none)
    else
      let reg' := { reg with
        bounties := updateFirst (fun b => b.id = bountyId)
          (submitUpdate proofData proofLinks proofNotes now) reg.bounties }
      (.ok (submitUpdate proofData proofLinks proofNotes now bounty), reg', some reg')

/-- The mutation for an approved verification. -/
def approveUpdate (verifierId now : String) (b : Bounty) : Bounty :=
  { b with status := "completed", completedAt := some now,
           verifiedBy := some verifierId }

/-- The mutation for a rejected verification. -/
def disputeUpdate (b : Bounty) : Bounty :=
  { b with status := "disputed" }

/-- `BountyBoard.verifyCompletion(bountyId, verifierId, approved)`. -/
def verifyCompletion (reg : BountyReg) (bountyId verifierId : String)
    (approved : Bool) (now : String) :
    BountyResult × BountyReg × Option BountyReg :=
  match findBounty reg bountyId with
  | none => (.failure "bounty not found", reg, none)
  | some bounty =>
    if bounty.status ≠ "pending_verification" then
      (.failure ("bounty is " ++ bounty.status), reg, none)
    else if approved then
      let reg' := { reg with
        bounties := updateFirst (fun b => b.id = bountyId)
          (approveUpdate verifierId now) reg.bounties,
        totalCompleted := reg.totalCompleted + 1,
        totalPaidOut := reg.totalPaidOut + bounty.reward }
      (.ok (approveUpdate verifierId now bounty), reg', some reg')
    else
      let reg' := { reg with
        bounties := updateFirst (fun b => b.id = bountyId) disputeUpdate reg.bounties }
      (.ok (disputeUpdate bounty), reg', some reg')

/-! ## ActivityFeed (`src/sdk/activity-feed.js`) -/

def MAX_EVENTS : Nat := 1000

structure FeedEvent where
  id : Nat
  type : String
  /-- the event payload, represented by its JSON serialization -/
  data : String
  timestamp : String
  hash : String
  deriving Repr, DecidableEq

structure FeedState where
  events : List FeedEvent
  lastId : Nat
  deriving Repr, DecidableEq

/-- `ActivityFeed.saveEvents()`: trims the in-memory list to the last
`MAX_EVENTS` entries, then writes the whole state.  Returns the new in-memory
state and the written value. -/
def saveEvents (s : FeedState) : FeedState × FeedState :=
  let s' := if s.events.length > MAX_EVENTS
    then { s with events := s.events.drop (s.events.length - MAX_EVENTS) }
    else s
  (s', s')

/-- `ActivityFeed.log(type, data)`; `now` stands for
`new Date().toISOString()`. -/
def feedLog (s : FeedState) (type dataJson now : String) :
    FeedEvent × FeedState × Option FeedState :=
  let newId := s.lastId + 1
  let event : FeedEvent := {
    id := newId,
    type := type,
    data := dataJson,
    timestamp := now,
    hash := strTake (sha256hex (toString newId ++ "-" ++ type ++ "-" ++ dataJson)) 16 }
  let s1 := { s with lastId := newId, events := s.events ++ [event] }
  let (s2, written) := saveEvents s1
  (event, s2, some written)

/-! ## ProofOfHunt (`src/scripts/proof-of-hunt.js`) -/

/-- `ProofOfHunt.hashHunt(huntData)` applied to the hunt result text:
first 16 hex chars of SHA-256 of `JSON.stringify(huntData)`. -/
def hashHunt (huntData : String) : String :=
  strTake (sha256hex (jsonStringifyString huntData)) 16

/-- The memo object `logHunt` serializes into the Solana memo instruction. -/
structure HuntMemo where
  p : String
  v : String
  t : String
  w : String
  h : String
  ts : Nat
  deriving Repr, DecidableEq

/-- The memo `ProofOfHunt.logHunt(wolfType, mission, result)` builds;
`timestamp` stands for `Date.now()`.  (`huntData.resultHash` is
`this.hashHunt(result)`.) -/
def logHuntMemo (wolfType _mission resultText : String) (timestamp : Nat) : HuntMemo :=
  let resultHash := hashHunt resultText
  { p := "romulus",
    v := "1",
    t := "hunt",
    w := wolfType,
    h := resultHash,
    ts := timestamp }

/-- The memo string placed in the transaction instruction data
(`JSON.stringify` of the memo object, field order as written). -/
def huntMemoString (m : HuntMemo) : String :=
  "\u007b\"p\":" ++ jsonStringifyString m.p ++
  ",\"v\":" ++ jsonStringifyString m.v ++
  ",\"t\":" ++ jsonStringifyString m.t ++
  ",\"w\":" ++ jsonStringifyString m.w ++
  ",\"h\":" ++ jsonStringifyString m.h ++
  ",\"ts\":" ++ toString m.ts ++ "\u007d"

/-! ## API server (`src/api/server.js`) -/

structure Headers where
  /-- the `authorization` header, `none` when absent -/
  authorization : Option String
  /-- the `x-api-key` header, `none` when absent -/
  xApiKey : Option String
  deriving Repr, DecidableEq

/-- Key extraction inside `checkAuth`: `Bearer `-prefixed `authorization`
wins, else a truthy `x-api-key`. -/
def checkAuthKey (h : Headers) : Option String :=
  match h.authorization with
  | some a =>
    if strStartsWith a "Bearer " then some (strDrop a 7)
    else if jsTruthy h.xApiKey then h.xApiKey else none
  | none => if jsTruthy h.xApiKey then h.xApiKey else none

inductive AuthResult
  | authorized (reason : String)
  | unauthorized (reason : String)
  deriving Repr, DecidableEq

def AuthResult.ok : AuthResult → Bool
  | .authorized _ => true
  | .unauthorized _ => false

/-- `checkAuth(req)`.  `requireAuth` is the `ROMULUS_REQUIRE_AUTH` switch,
`masterKey` is `ROMULUS_MASTER_KEY` (shared with the payment gate). -/
def checkAuth (requireAuth : Bool) (masterKey : Option String) (ks : KeysState)
    (h : Headers) : AuthResult :=
  if !requireAuth then .authorized "auth_disabled"
  else
    let apiKey := checkAuthKey h
    if !jsTruthy apiKey then .unauthorized "missing_key"
    else if jsTruthy masterKey && apiKey = masterKey then .authorized "master_key"
    else
      match validateKey masterKey ks apiKey with
      | .masterValid => .authorized "master_key"
      | .recordValid _ => .authorized "paid_key"
      | .revokedKey => .unauthorized "API key has been revoked"
      | .invalid => .unauthorized "Invalid API key"

/-- Key extraction inside the protected routes: slice the authorization header
past the first 7 characters, else fall back to `x-api-key`. -/
def routeApiKey (h : Headers) : Option String :=
  match h.authorization with
  | some a => if strDrop a 7 = "" then h.xApiKey else some (strDrop a 7)
  | none => h.xApiKey

/-- HTTP responses the two embedded routes produce, reduced to status plus the
payload fields the claims are about. -/
inductive RouteResponse
  | unauthorized401
  | paymentRequired402
  | badRequest400
  | notFound404
  | createdSpawn (result : SpawnResult) (creditsRemaining : Option Int)
  | createdBounty (result : BountyResult)
  deriving Repr, DecidableEq

/-- The `POST /wolves/spawn` handler: auth check, credit deduction through
`PaymentGate.useCredits`, body validation, then `RomulusClient.spawnWolf`.
Returns the response together with the new keys state, the keys-file write,
the new registry, and the registry-file write. -/
def routeWolvesSpawn (requireAuth : Bool) (masterKey : Option String)
    (ks : KeysState) (reg : Registry) (h : Headers)
    (body : Option (String × WolfConfig)) (wolfId : String) (now : Nat) :
    RouteResponse × KeysState × Option KeysState × Registry × Option Registry :=
  if !(checkAuth requireAuth masterKey ks h).ok then
    (.unauthorized401, ks, none, reg, none)
  else
    let apiKey := routeApiKey h
    let (creditResult, ks', ksWrite) := useCredits masterKey ks apiKey "wolf_spawn"
    if !creditResult.success then
      (.paymentRequired402, ks', ksWrite, reg, none)
    else
      match body with
      | none => (.badRequest400, ks', ksWrite, reg, none)
      | some (packId, wolfConfig) =>
        match spawnWolf reg packId wolfConfig wolfId now with
        | (.packNotFound, reg', regWrite) =>
          (.notFound404, ks', ksWrite, reg', regWrite)
        | (res, reg', regWrite) =>
          let creditsRemaining := match creditResult with
            | .ok _ remaining => some remaining
            | _ => none
          (.createdSpawn res creditsRemaining, ks', ksWrite, reg', regWrite)

/-- The `POST /bounties` handler: auth check, body validation, then
`BountyBoard.postBounty`.  It never touches the payment gate. -/
def routePostBounty (requireAuth : Bool) (masterKey : Option String)
    (ks : KeysState) (breg : BountyReg) (h : Headers)
    (body : Option BountyConfig) (bountyId now : String) :
    RouteResponse × KeysState × Option KeysState × BountyReg × Option BountyReg :=
  if !(checkAuth requireAuth masterKey ks h).ok then
    (.unauthorized401, ks, none, breg, none)
  else
    match body with
    | none => (.badRequest400, ks, none, breg, none)
    | some bountyConfig =>
      if bountyConfig.title = "" || bountyConfig.description = "" then
        (.badRequest400, ks, none, breg, none)
      else
        let (res, breg', bregWrite) := postBounty breg bountyConfig bountyId now
        (.createdBounty res, ks, none, breg', bregWrite)

/-! ### Request dispatch (`handleRequest`) -/

/-- The route table keys, in source insertion order. -/
def ROUTES : List String :=
  ["GET /", "GET /stats", "GET /access/pricing", "POST /access/purchase",
   "GET /access/balance", "GET /access/stats", "GET /packs",
   "POST /packs/register", "POST /wolves/spawn", "GET /wolves/:packId",
   "POST /hunts/complete", "GET /treasury", "GET /bounties/stats",
   "GET /bounties", "POST /bounties", "POST /bounties/claim",
   "POST /bounties/submit", "POST /bounties/verify",
   "GET /bounties/leaderboard", "GET /activity", "GET /activity/summary",
   "POST /activity", "GET /proofs/stats", "GET /proofs", "POST /proofs/anchor",
   "GET /proofs/verify/:txSignature", "GET /proofs/wolf/:wolfId",
   "GET /commerce/stats", "GET /commerce/agents", "POST /commerce/agents",
   "GET /commerce/contracts", "POST /commerce/hire",
   "POST /commerce/pay/:contractId"]

def isWordChar (c : Char) : Bool :=
  (c ≥ Char.ofNat 97 && c ≤ Char.ofNat 122) ||
  (c ≥ Char.ofNat 65 && c ≤ Char.ofNat 90) ||
  (c ≥ Char.ofNat 48 && c ≤ Char.ofNat 57) || c = Char.ofNat 95

/-- The route-path match on the colon-param pattern: the first capture of a
colon followed by word characters. -/
def paramNameOf : List Char → Option String
  | [] => none
  | c :: cs =>
    if c = Char.ofNat 58 && (cs.headD (Char.ofNat 32) |> isWordChar) then
      some (String.mk (cs.takeWhile isWordChar))
    else paramNameOf cs

/-- The route path split at the colon, first piece: everything before it. -/
def routeStem (routePath : String) : String :=
  String.mk (routePath.data.takeWhile (fun c => c ≠ Char.ofNat 58))

/-- Method part of a route key (split at the space). -/
def routeMethodOf (pattern : String) : String :=
  String.mk (pattern.data.takeWhile (fun c => c ≠ Char.ofNat 32))

/-- Path part of a route key (segment after the first space). -/
def routePathOf (pattern : String) : String :=
  String.mk ((pattern.data.dropWhile (fun c => c ≠ Char.ofNat 32)).drop 1
    |>.takeWhile (fun c => c ≠ Char.ofNat 32))

/-- The parameterized-route scan of `handleRequest`: first pattern with the
same method, a colon parameter, and a matching path. -/
def findParamRoute (patterns : List String) (method path : String) :
    Option (String × String × String) :=
  match patterns with
  | [] => none
  | pattern :: rest =>
    if routeMethodOf pattern = method then
      match paramNameOf (routePathOf pattern).data with
      | some paramName =>
        let stem := routeStem (routePathOf pattern)
        if strStartsWith path stem then
          some (pattern, paramName, strDrop path stem.length)
        else findParamRoute rest method path
      | none => findParamRoute rest method path
    else findParamRoute rest method path

inductive Dispatch
  /-- CORS preflight: status 204, no body -/
  | options204
  /-- exact route-table hit -/
  | exact (pattern : String)
  /-- parameterized route hit, with the extracted parameter -/
  | param (pattern paramName paramValue : String)
  /-- status 404, error string in the body -/
  | notFound (error : String)
  deriving Repr, DecidableEq

/-- `handleRequest(req, res)` reduced to which handler answers. -/
def dispatch (patterns : List String) (method path : String) : Dispatch :=
  if method = "OPTIONS" then .options204
  else
    let routeKey := method ++ " " ++ path
    if patterns.contains routeKey then .exact routeKey
    else
      match findParamRoute patterns method path with
      | some (pattern, paramName, paramValue) => .param pattern paramName paramValue
      | none => .notFound "Not found"

/-! ## Further helper lemmas -/

theorem mem_updateFirst_of_find? (p : α → Bool) (f : α → α) (l : List α) (b a : α)
    (hfind : l.find? p = some a) (h : b ∈ updateFirst p f l) :
    b ∈ l ∨ b = f a := by
  induction l with
  | nil => simp at hfind
  | cons c cs ih =>
    by_cases hc : p c
    · rw [List.find?_cons_of_pos _ hc] at hfind
      cases hfind
      simp only [updateFirst, if_pos hc] at h
      rcases List.mem_cons.mp h with h1 | h2
      · exact Or.inr h1
      · exact Or.inl (List.mem_cons_of_mem _ h2)
    · rw [List.find?_cons_of_neg _ hc] at hfind
      simp only [updateFirst, if_neg hc] at h
      rcases List.mem_cons.mp h with h1 | h2
      · exact Or.inl (h1 ▸ List.mem_cons_self ..)
      · rcases ih hfind h2 with h3 | h4
        · exact Or.inl (List.mem_cons_of_mem _ h3)
        · exact Or.inr h4

theorem costOf_pos (operation : String) : 1 ≤ costOf operation := by
  unfold costOf
  split
  · omega
  · split
    · omega
    · split
      · omega
      · split <;> omega

theorem length_hexChars (k : Nat) : ∀ n, (hexChars n k).length = k := by
  induction k with
  | zero => intro n; rfl
  | succ k ih =>
    intro n
    simp only [hexChars, List.length_append, List.length_cons, List.length_nil, ih]

theorem sha256Compress_length (hs chunk : List Nat) (h : hs.length = 8) :
    (sha256Compress hs chunk).length = 8 := by
  unfold sha256Compress
  split
  · simp
  · exact h

theorem sha256Chunks_length (fuel : Nat) : ∀ hs bytes : List Nat, hs.length = 8 →
    (sha256Chunks hs bytes fuel).length = 8 := by
  induction fuel with
  | zero => intro hs bytes h; exact h
  | succ fuel ih =>
    intro hs bytes h
    unfold sha256Chunks
    match bytes with
    | [] => exact h
    | b :: rest => exact ih _ _ (sha256Compress_length _ _ h)

theorem sha256Words_length (msg : List Nat) : (sha256Words msg).length = 8 :=
  sha256Chunks_length _ _ _ rfl

theorem length_sha256hex (s : String) : (sha256hex s).length = 64 := by
  show (((sha256Words (strBytes s)).map (fun wrd => hexChars wrd 8)).flatten).length = 64
  rw [List.length_flatten]
  have h1 : ((sha256Words (strBytes s)).map (fun wrd => hexChars wrd 8)).map
      List.length = (sha256Words (strBytes s)).map (fun _ => 8) := by
    rw [List.map_map]
    exact List.map_congr_left (fun wrd _ => length_hexChars 8 wrd)
  rw [h1]
  have h3 : ∀ l : List Nat, (l.map (fun _ => (8 : Nat))).sum = 8 * l.length := by
    intro l
    induction l with
    | nil => simp
    | cons a t ih => simp only [List.map_cons, List.sum_cons, ih, List.length_cons]; omega
  rw [h3, sha256Words_length]

/-- The sixteen lower-case hexadecimal digits. -/
def isHexChar (c : Char) : Bool := "0123456789abcdef".data.contains c

theorem hexDigit_isHex (n : Nat) : isHexChar (hexDigit (n % 16)) = true := by
  have h16 : n % 16 < 16 := Nat.mod_lt _ (by omega)
  revert h16
  generalize n % 16 = m
  revert m
  decide

theorem mem_hexChars_isHex (k : Nat) : ∀ n c, c ∈ hexChars n k → isHexChar c = true := by
  induction k with
  | zero => intro n c h; simp [hexChars] at h
  | succ k ih =>
    intro n c h
    simp only [hexChars, List.mem_append, List.mem_singleton] at h
    rcases h with h | h
    · exact ih _ _ h
    · exact h ▸ hexDigit_isHex n

theorem mem_sha256hex_isHex (s : String) (c : Char) (h : c ∈ (sha256hex s).data) :
    isHexChar c = true := by
  have h2 : c ∈ ((sha256Words (strBytes s)).map (fun wrd => hexChars wrd 8)).flatten := h
  rw [List.mem_flatten] at h2
  rcases h2 with ⟨l, hl, hc⟩
  rw [List.mem_map] at hl
  rcases hl with ⟨wrd, _, rfl⟩
  exact mem_hexChars_isHex 8 wrd c hc

/-! ## Concrete fixtures used by the witnesses and the counterexample -/

def recEx : KeyRecord :=
  { apiKey := "rml_a", payerWallet := "W1", credits := 5, totalPurchased := 100000000,
    totalUsed := 2, issuedAt := "t0", lastTopUp := none, status := "active",
    txHistory := ["sigA"] }

def keysEx : KeysState :=
  { issued := [recEx], revoked := [], transactions := ["sigA"],
    walletToKey := [("W1", "rml_a")], txToKey := [("sigA", "rml_a")] }

def wolfEx : Wolf :=
  { id := "wolf-1", packId := "pack-1", type := "scout", task := "patrol",
    status := "spawned", spawnedAt := 10, completedAt := none, result := none }

def packEx : Pack :=
  { id := "pack-1", name := "alpha-pack", alpha := "alpha", treasury := none,
    description := "", apiKey := "rml_p", createdAt := 1,
    stats := { wolvesSpawned := 1, huntsCompleted := 0, totalTokens := 0 },
    wolves := [wolfEx] }

def regEx : Registry :=
  { packs := [packEx], totalWolvesSpawned := 1, totalHunts := 0 }

def bountyEx : Bounty :=
  { id := "b1", title := "find intel", description := "scout the area",
    type := "general", reward := 2, poster := "anon", posterWallet := none,
    requirements := [], deadline := none, status := "open", claimedBy := none,
    claimedWallet := none, claimedAt := none, completedAt := none, proof := none,
    createdAt := "t0", verifiedBy := none }

def bountyRegEx : BountyReg :=
  { bounties := [bountyEx], totalPosted := 1, totalCompleted := 0, totalPaidOut := 0 }

def hdrsEx : Headers := { authorization := none, xApiKey := some "rml_a" }

def bountyConfigEx : BountyConfig :=
  { title := "find intel", description := "scout the area", type := "general",
    reward := 2, poster := "anon", posterWallet := none, requirements := [],
    deadline := none }

/-! ## Claim C4: the on-chain memo carries the hunt hash -/

/-- C4: for every result text passed to `ProofOfHunt.logHunt`, the memo placed
in the transaction is a JSON object whose field `h` equals the first 16
hexadecimal characters of the SHA-256 digest of the JSON-serialized result
(`hashHunt`), together with protocol `romulus`, version `1`, type `hunt`, the
wolf type, and the timestamp.  (We also check that those 16 characters are
hexadecimal digits.) -/
theorem logHunt_memo_spec (wolfType mission resultText : String) (timestamp : Nat) :
    (logHuntMemo wolfType mission resultText timestamp).h =
        strTake (sha256hex (jsonStringifyString resultText)) 16 ∧
    (logHuntMemo wolfType mission resultText timestamp).h = hashHunt resultText ∧
    (logHuntMemo wolfType mission resultText timestamp).p = "romulus" ∧
    (logHuntMemo wolfType mission resultText timestamp).v = "1" ∧
    (logHuntMemo wolfType mission resultText timestamp).t = "hunt" ∧
    (logHuntMemo wolfType mission resultText timestamp).w = wolfType ∧
    (logHuntMemo wolfType mission resultText timestamp).ts = timestamp ∧
    (logHuntMemo wolfType mission resultText timestamp).h.length = 16 ∧
    (∀ c ∈ (logHuntMemo wolfType mission resultText timestamp).h.data,
      isHexChar c = true) := by
  refine ⟨rfl, rfl, rfl, rfl, rfl, rfl, rfl, ?_, ?_⟩
  · show (strTake (sha256hex (jsonStringifyString resultText)) 16).length = 16
    show ((sha256hex (jsonStringifyString resultText)).data.take 16).length = 16
    rw [List.length_take]
    have h := length_sha256hex (jsonStringifyString resultText)
    show min 16 (sha256hex (jsonStringifyString resultText)).data.length = 16
    have h2 : (sha256hex (jsonStringifyString resultText)).data.length = 64 := h
    omega
  · intro c hc
    have h2 : c ∈ (sha256hex (jsonStringifyString resultText)).data :=
      List.take_subset _ _ hc
    exact mem_sha256hex_isHex _ _ h2

/-! ## Claim C3: `useCredits` is atomic on error and exact on success -/

theorem findActive_deductState (ks : KeysState) (key : Option String)
    (cost : Int) (r : KeyRecord) (hf : findActive ks key = some r) :
    findActive (deductState ks key cost) key =
      some { r with credits := r.credits - cost, totalUsed := r.totalUsed + cost } := by
  have hf' : ks.issued.find?
      (fun rr : KeyRecord => key = some rr.apiKey && rr.status = "active") = some r := hf
  have hp := List.find?_some hf'
  exact find?_updateFirst _ _ _ _ hf' (by simpa using hp)

/-- C3: `PaymentGate.useCredits` is atomic on error: if the key has no active
record, or the record's credits are strictly below the operation's cost, the
call fails and leaves both the in-memory record and the persisted keys file
unchanged (no write happens); on a non-master success the record's credits
drop by exactly the operation's cost and its `totalUsed` grows by exactly that
cost, and a non-master success only happens with an active record holding at
least the cost. -/
theorem useCredits_atomic (mk : Option String) (ks : KeysState)
    (key : Option String) (op : String) :
    (isMasterCall mk key = false → findActive ks key = none →
      useCredits mk ks key op = (.invalidKey, ks, none)) ∧
    (∀ r, isMasterCall mk key = false → findActive ks key = some r →
      r.credits < costOf op →
      useCredits mk ks key op = (.insufficient r.credits (costOf op), ks, none)) ∧
    (∀ r, isMasterCall mk key = false → findActive ks key = some r →
      ¬ r.credits < costOf op →
      useCredits mk ks key op =
        (.ok (costOf op) (r.credits - costOf op), deductState ks key (costOf op),
         some (deductState ks key (costOf op))) ∧
      findActive (deductState ks key (costOf op)) key =
        some { r with credits := r.credits - costOf op,
                      totalUsed := r.totalUsed + costOf op }) ∧
    (isMasterCall mk key = false → (useCredits mk ks key op).1.success = true →
      ∃ r, findActive ks key = some r ∧ ¬ r.credits < costOf op) := by
  refine ⟨?_, ?_, ?_, ?_⟩
  · intro hm hf
    simp [useCredits, hm, hf]
  · intro r hm hf hlt
    simp [useCredits, hm, hf, hlt]
  · intro r hm hf hge
    refine ⟨by simp [useCredits, hm, hf, hge], findActive_deductState ks key _ r hf⟩
  · intro hm hs
    cases hfind : findActive ks key with
    | none =>
      rw [show useCredits mk ks key op = (.invalidKey, ks, none) by
        simp [useCredits, hm, hfind]] at hs
      simp [UseCreditsResult.success] at hs
    | some r =>
      by_cases hlt : r.credits < costOf op
      · rw [show useCredits mk ks key op =
            (.insufficient r.credits (costOf op), ks, none) by
          simp [useCredits, hm, hfind, hlt]] at hs
        simp [UseCreditsResult.success] at hs
      · exact ⟨r, rfl, hlt⟩

theorem useCredits_atomic_witness :
    useCredits none keysEx (some "rml_a") "wolf_spawn" =
      (.ok 1 4, deductState keysEx (some "rml_a") 1,
       some (deductState keysEx (some "rml_a") 1)) ∧
    findActive (deductState keysEx (some "rml_a") 1) (some "rml_a") =
      some { recEx with credits := 4, totalUsed := 3 } := by
  have h := (useCredits_atomic none keysEx (some "rml_a") "wolf_spawn").2.2.1 recEx
    (by decide) (by decide) (by decide)
  refine ⟨?_, ?_⟩
  · rw [h.1]; decide
  · rw [show (1 : Int) = costOf "wolf_spawn" from rfl, h.2]; decide

/-! ## Claim C10: lost update under two overlapping credit deductions -/

/-- Two server processes each construct a `PaymentGate`, so each reads the
keys file once (`loadKeys`) and holds `loaded` in memory.  Both handle a
request that calls `useCredits`; each call mutates only its own copy, and the
two `saveKeys` writes land one after the other.  The final file contents are
whatever the second write rewrote the file to. -/
def concurrentDeductions (mk : Option String) (loaded : KeysState)
    (key : Option String) (op : String) :
    UseCreditsResult × UseCreditsResult × KeysState :=
  let a := useCredits mk loaded key op
  let b := useCredits mk loaded key op
  (a.1, b.1, b.2.2.getD (a.2.2.getD loaded))

/-- C10: the keys JSON file is read once at construction, modified in memory,
and rewritten without locking, so two overlapping requests that each deduct
credits can lose one of the two updates: both calls report success and deduct
the cost, yet the final persisted balance reflects only one deduction. -/
theorem credit_race (mk : Option String) (loaded : KeysState) (key : Option String)
    (op : String) (r : KeyRecord)
    (hm : isMasterCall mk key = false)
    (hf : findActive loaded key = some r)
    (hc : costOf op ≤ r.credits) :
    (concurrentDeductions mk loaded key op).1 = .ok (costOf op) (r.credits - costOf op) ∧
    (concurrentDeductions mk loaded key op).2.1 = .ok (costOf op) (r.credits - costOf op) ∧
    (findActive (concurrentDeductions mk loaded key op).2.2 key).map (·.credits) =
      some (r.credits - costOf op) ∧
    r.credits - costOf op ≠ r.credits - 2 * costOf op := by
  have hge : ¬ r.credits < costOf op := by omega
  have h := (useCredits_atomic mk loaded key op).2.2.1 r hm hf hge
  have hcd : concurrentDeductions mk loaded key op =
      (.ok (costOf op) (r.credits - costOf op), .ok (costOf op) (r.credits - costOf op),
       deductState loaded key (costOf op)) := by
    unfold concurrentDeductions
    rw [h.1]
    rfl
  refine ⟨by rw [hcd], by rw [hcd], ?_, ?_⟩
  · rw [hcd]
    show (findActive (deductState loaded key (costOf op)) key).map (·.credits) = _
    rw [findActive_deductState loaded key _ r hf]
    rfl
  · have := costOf_pos op
    omega

theorem credit_race_witness :
    (concurrentDeductions none keysEx (some "rml_a") "wolf_spawn").1 = .ok 1 4 ∧
    (concurrentDeductions none keysEx (some "rml_a") "wolf_spawn").2.1 = .ok 1 4 ∧
    (findActive (concurrentDeductions none keysEx (some "rml_a") "wolf_spawn").2.2
      (some "rml_a")).map (·.credits) = some 4 ∧
    (4 : Int) ≠ 3 := by
  have h := credit_race none keysEx (some "rml_a") "wolf_spawn" recEx
    (by decide) (by decide) (by decide)
  refine ⟨?_, ?_, ?_, by decide⟩
  · rw [h.1]; decide
  · rw [h.2.1]; decide
  · rw [h.2.2.1]; decide

/-! ## Claim C9: `completeHunt` truncates and finalizes -/

theorem completeHuntPacks_none (wolfId txt : String) (now : Nat) (packs : List Pack)
    (h : ∀ p ∈ packs, p.wolves.find? (fun x => x.id = wolfId) = none) :
    completeHuntPacks wolfId txt now packs = none := by
  induction packs with
  | nil => rfl
  | cons p rest ih =>
    have hp := h p (List.mem_cons_self ..)
    unfold completeHuntPacks
    rw [hp]
    simp only [Option.isSome_none, Bool.false_eq_true, if_false]
    rw [ih (fun q hq => h q (List.mem_cons_of_mem _ hq))]
    rfl

theorem completeHuntPacks_isSome (wolfId txt : String) (now : Nat) (packs : List Pack)
    (p : Pack) (hp : p ∈ packs)
    (h : (p.wolves.find? (fun x => x.id = wolfId)).isSome = true) :
    (completeHuntPacks wolfId txt now packs).isSome = true := by
  induction packs with
  | nil => simp at hp
  | cons q rest ih =>
    unfold completeHuntPacks
    by_cases hq : (q.wolves.find? (fun x => x.id = wolfId)).isSome = true
    · simp [hq]
    · rcases List.mem_cons.mp hp with h1 | h2
      · exact absurd (h1 ▸ h) hq
      · simp only [hq, Bool.false_eq_true, if_false]
        rcases Option.isSome_iff_exists.mp (ih h2) with ⟨pr, hpr⟩
        rw [hpr]
        rfl

/-- The update the hunt-completion loop performs on the pack that holds the
wolf. -/
def completedPack (wolfId txt : String) (now : Nat) (pack : Pack) : Pack :=
  { pack with
    wolves := (updateFirst (fun x => x.id = wolfId)
      (fun x => { x with status := "completed", completedAt := some now,
                         result := some (jsTruncate txt 1000) })
      pack.wolves),
    stats := { pack.stats with huntsCompleted := pack.stats.huntsCompleted + 1 } }

theorem completeHuntPacks_some (wolfId txt : String) (now : Nat)
    (packs : List Pack) (pid : String) (packs' : List Pack)
    (h : completeHuntPacks wolfId txt now packs = some (pid, packs')) :
    ∃ pack w, pack ∈ packs ∧
      pack.wolves.find? (fun x => x.id = wolfId) = some w ∧
      pid = pack.id ∧
      completedPack wolfId txt now pack ∈ packs' ∧
      (completedPack wolfId txt now pack).wolves.find? (fun x => x.id = wolfId) =
        some { w with status := "completed", completedAt := some now,
                      result := some (jsTruncate txt 1000) } := by
  induction packs generalizing packs' with
  | nil => simp [completeHuntPacks] at h
  | cons p rest ih =>
    unfold completeHuntPacks at h
    by_cases hp : (p.wolves.find? (fun x => x.id = wolfId)).isSome = true
    · rw [if_pos hp] at h
      rcases Option.isSome_iff_exists.mp hp with ⟨w, hw⟩
      injection h with h1
      injection h1 with hpid hpacks
      have hfw : (completedPack wolfId txt now p).wolves.find?
          (fun x => x.id = wolfId) =
          some { w with status := "completed", completedAt := some now,
                        result := some (jsTruncate txt 1000) } := by
        have hw' := List.find?_some hw
        exact find?_updateFirst _ _ _ _ hw (by simpa using hw')
      refine ⟨p, w, List.mem_cons_self .., hw, hpid.symm, ?_, hfw⟩
      rw [← hpacks]
      exact List.mem_cons_self ..
    · rw [if_neg hp] at h
      rcases Option.map_eq_some'.mp h with ⟨⟨pid0, packs0⟩, hrec, heq⟩
      injection heq with heq1 heq2
      rcases ih packs0 (heq1 ▸ hrec) with ⟨pack, w, hmem, hfind, hpid, hmem', hfw⟩
      exact ⟨pack, w, List.mem_cons_of_mem _ hmem, hfind, hpid,
        heq2 ▸ List.mem_cons_of_mem _ hmem', hfw⟩

/-- C9: `completeHunt` truncates and finalizes.  For a wolf found in some
pack it marks the wolf `completed`, sets `completedAt`, stores at most the
first 1000 characters of the result, bumps the pack's `huntsCompleted` and the
registry's `totalHunts` by one, and rewrites the registry file; for a wolf in
no pack it reports an error and changes nothing. -/
theorem completeHunt_spec (reg : Registry) (wolfId resultText : String) (now : Nat) :
    ((∀ p ∈ reg.packs, p.wolves.find? (fun x => x.id = wolfId) = none) →
      completeHunt reg wolfId resultText now = (.wolfNotFound, reg, none)) ∧
    (∀ pid packs', completeHuntPacks wolfId resultText now reg.packs
        = some (pid, packs') →
      completeHunt reg wolfId resultText now =
        (.completed wolfId pid,
         { reg with packs := packs', totalHunts := reg.totalHunts + 1 },
         some { reg with packs := packs', totalHunts := reg.totalHunts + 1 }) ∧
      ∃ pack w, pack ∈ reg.packs ∧
        pack.wolves.find? (fun x => x.id = wolfId) = some w ∧
        pid = pack.id ∧
        completedPack wolfId resultText now pack ∈ packs' ∧
        (completedPack wolfId resultText now pack).stats.huntsCompleted
          = pack.stats.huntsCompleted + 1 ∧
        (completedPack wolfId resultText now pack).wolves.find?
            (fun x => x.id = wolfId) =
          some { w with status := "completed", completedAt := some now,
                        result := some (jsTruncate resultText 1000) }) ∧
    (jsTruncate resultText 1000).data.length ≤ 1000 ∧
    ((∃ p ∈ reg.packs, (p.wolves.find? (fun x => x.id = wolfId)).isSome = true) →
      (completeHunt reg wolfId resultText now).1 ≠ .wolfNotFound) := by
  refine ⟨?_, ?_, ?_, ?_⟩
  · intro h
    unfold completeHunt
    rw [completeHuntPacks_none wolfId resultText now reg.packs h]
  · intro pid packs' h
    refine ⟨by unfold completeHunt; rw [h], ?_⟩
    rcases completeHuntPacks_some wolfId resultText now reg.packs pid packs' h with
      ⟨pack, w, hmem, hfind, hpid, hmem', hfw⟩
    exact ⟨pack, w, hmem, hfind, hpid, hmem', rfl, hfw⟩
  · exact List.length_take_le 1000 resultText.data
  · rintro ⟨p, hp, hw⟩
    have hs := completeHuntPacks_isSome wolfId resultText now reg.packs p hp hw
    rcases Option.isSome_iff_exists.mp hs with ⟨⟨pid, packs'⟩, hsome⟩
    unfold completeHunt
    rw [hsome]
    simp

theorem completeHunt_spec_witness :
    completeHunt regEx "nope" "x" 0 = (.wolfNotFound, regEx, none) ∧
    (completeHunt regEx "wolf-1" (String.mk (List.replicate 1200 (Char.ofNat 97)))
        99).1 ≠ .wolfNotFound ∧
    (jsTruncate (String.mk (List.replicate 1200 (Char.ofNat 97))) 1000).data.length
      ≤ 1000 :=
  ⟨(completeHunt_spec regEx "nope" "x" 0).1 (by decide),
   (completeHunt_spec regEx "wolf-1"
      (String.mk (List.replicate 1200 (Char.ofNat 97))) 99).2.2.2
      ⟨packEx, by decide, by decide⟩,
   (completeHunt_spec regEx "wolf-1"
      (String.mk (List.replicate 1200 (Char.ofNat 97))) 99).2.2.1⟩

/-! ## Claim C8: request dispatch -/

theorem findParamRoute_sound (patterns : List String) (method path : String)
    (pat n v : String)
    (h : findParamRoute patterns method path = some (pat, n, v)) :
    pat ∈ patterns ∧ routeMethodOf pat = method ∧
    paramNameOf (routePathOf pat).data = some n ∧
    strStartsWith path (routeStem (routePathOf pat)) = true ∧
    v = strDrop path (routeStem (routePathOf pat)).length := by
  induction patterns with
  | nil => simp [findParamRoute] at h
  | cons q rest ih =>
    unfold findParamRoute at h
    by_cases hm : routeMethodOf q = method
    · rw [if_pos hm] at h
      cases hname : paramNameOf (routePathOf q).data with
      | none =>
        rw [hname] at h
        rcases ih h with ⟨h1, h2, h3, h4, h5⟩
        exact ⟨List.mem_cons_of_mem _ h1, h2, h3, h4, h5⟩
      | some name =>
        rw [hname] at h
        dsimp only at h
        by_cases hpre : strStartsWith path (routeStem (routePathOf q)) = true
        · rw [if_pos hpre] at h
          injection h with h1
          injection h1 with hq h2
          injection h2 with hn hv
          subst hq; subst hn; subst hv
          exact ⟨List.mem_cons_self .., hm, hname, hpre, rfl⟩
        · rw [if_neg hpre] at h
          rcases ih h with ⟨h1, h2, h3, h4, h5⟩
          exact ⟨List.mem_cons_of_mem _ h1, h2, h3, h4, h5⟩
    · rw [if_neg hm] at h
      rcases ih h with ⟨h1, h2, h3, h4, h5⟩
      exact ⟨List.mem_cons_of_mem _ h1, h2, h3, h4, h5⟩

/-- C8: `handleRequest` answers every OPTIONS request with 204; otherwise it
dispatches by exact `'METHOD path'` lookup in the route table first, then by
parameterized-route prefix matching among routes with a colon parameter and
the same method, and responds 404 with error `'Not found'` when no route
matches either way. -/
theorem handleRequest_spec (method path : String) :
    dispatch ROUTES "OPTIONS" path = .options204 ∧
    (method ≠ "OPTIONS" → ROUTES.contains (method ++ " " ++ path) = true →
      dispatch ROUTES method path = .exact (method ++ " " ++ path)) ∧
    (∀ pat n v, dispatch ROUTES method path = .param pat n v →
      method ≠ "OPTIONS" ∧ ROUTES.contains (method ++ " " ++ path) = false ∧
      pat ∈ ROUTES ∧ routeMethodOf pat = method ∧
      paramNameOf (routePathOf pat).data = some n ∧
      strStartsWith path (routeStem (routePathOf pat)) = true ∧
      v = strDrop path (routeStem (routePathOf pat)).length) ∧
    (method ≠ "OPTIONS" → ROUTES.contains (method ++ " " ++ path) = false →
      findParamRoute ROUTES method path = none →
      dispatch ROUTES method path = .notFound "Not found") := by
  refine ⟨rfl, ?_, ?_, ?_⟩
  · intro hne hc
    unfold dispatch
    rw [if_neg hne, if_pos hc]
  · intro pat n v h
    unfold dispatch at h
    by_cases hne : method = "OPTIONS"
    · rw [if_pos hne] at h; cases h
    · rw [if_neg hne] at h
      by_cases hc : ROUTES.contains (method ++ " " ++ path) = true
      · simp only [hc, if_true] at h; cases h
      · simp only [hc, Bool.false_eq_true, if_false] at h
        cases hfind : findParamRoute ROUTES method path with
        | none => rw [hfind] at h; cases h
        | some triple =>
          rw [hfind] at h
          rcases triple with ⟨pat0, n0, v0⟩
          injection h with h1 h2 h3
          subst h1; subst h2; subst h3
          have hs := findParamRoute_sound ROUTES method path pat0 n0 v0 hfind
          exact ⟨hne, by simpa using hc, hs⟩
  · intro hne hc hfind
    unfold dispatch
    rw [if_neg hne, if_neg (by simpa using hc), hfind]

theorem handleRequest_spec_witness :
    dispatch ROUTES "OPTIONS" "/stats" = .options204 ∧
    dispatch ROUTES "GET" "/stats" = .exact "GET /stats" ∧
    dispatch ROUTES "GET" "/nope" = .notFound "Not found" ∧
    ("GET" : String) ≠ "OPTIONS" ∧
    ROUTES.contains ("GET" ++ " " ++ "/wolves/abc") = false ∧
    "GET /wolves/:packId" ∈ ROUTES ∧
    routeMethodOf "GET /wolves/:packId" = "GET" ∧
    paramNameOf (routePathOf "GET /wolves/:packId").data = some "packId" ∧
    strStartsWith "/wolves/abc" (routeStem (routePathOf "GET /wolves/:packId"))
      = true ∧
    "abc" = strDrop "/wolves/abc"
      (routeStem (routePathOf "GET /wolves/:packId")).length := by
  refine ⟨(handleRequest_spec "GET" "/stats").1,
    (handleRequest_spec "GET" "/stats").2.1 (by decide) (by decide),
    (handleRequest_spec "GET" "/nope").2.2.2 (by decide) (by decide) (by decide),
    ?_⟩
  have h := (handleRequest_spec "GET" "/wolves/abc").2.2.1
    "GET /wolves/:packId" "packId" "abc" (by decide)
  exact ⟨h.1, h.2.1, h.2.2.1, h.2.2.2.1, h.2.2.2.2.1, h.2.2.2.2.2.1, h.2.2.2.2.2.2⟩

/-! ## Claim C6: `spawnWolf` appends one wolf and persists -/

/-- The wolf record `spawnWolf` constructs. -/
def spawnedWolf (pack : Pack) (wolfConfig : WolfConfig) (wolfId : String)
    (now : Nat) : Wolf :=
  { id := wolfId,
    packId := pack.id,
    type := jsOr wolfConfig.type "custom",
    task := wolfConfig.task,
    status := "spawned",
    spawnedAt := now,
    completedAt := none,
    result := none }

/-- The in-place pack mutation `spawnWolf` performs. -/
def spawnUpdatedPack (pack : Pack) (wolf : Wolf) : Pack :=
  { pack with
    wolves := pack.wolves ++ [wolf],
    stats := { pack.stats with wolvesSpawned := pack.stats.wolvesSpawned + 1 } }

theorem spawnWolf_eq (reg : Registry) (identifier : String)
    (wolfConfig : WolfConfig) (wolfId : String) (now : Nat) (pack : Pack)
    (hp : getPack reg identifier = some pack) :
    spawnWolf reg identifier wolfConfig wolfId now =
      (let wolf := spawnedWolf pack wolfConfig wolfId now
       let reg' : Registry := { reg with
         packs := updateFirst (fun p => p.id = identifier || p.apiKey = identifier)
           (fun p => spawnUpdatedPack p wolf) reg.packs,
         totalWolvesSpawned := reg.totalWolvesSpawned + 1 }
       (.spawned wolfId pack.id pack.name
          { task := buildWolfPrompt (spawnUpdatedPack pack wolf) wolf,
            label := pack.name ++ "-" ++ wolf.type ++ "-" ++ strTakeRight wolfId 6,
            model := jsOr wolfConfig.model "anthropic/claude-sonnet-4" },
        reg', some reg')) := by
  unfold spawnWolf
  rw [hp]
  rfl

/-- C6: `spawnWolf` appends exactly one wolf record with status `spawned` to
the matched pack's wolves array, bumps the pack's `wolvesSpawned` and the
registry's `totalWolvesSpawned` by one, persists the registry, and returns a
spawn config whose task is the prompt `buildWolfPrompt` builds from the pack
and wolf; for an unknown pack identifier it returns an error and changes
nothing. -/
theorem spawnWolf_spec (reg : Registry) (identifier : String)
    (wolfConfig : WolfConfig) (wolfId : String) (now : Nat) :
    (getPack reg identifier = none →
      spawnWolf reg identifier wolfConfig wolfId now = (.packNotFound, reg, none)) ∧
    (∀ pack, getPack reg identifier = some pack →
      ∃ wolf updatedPack reg',
        spawnWolf reg identifier wolfConfig wolfId now =
          (.spawned wolfId pack.id pack.name
            { task := buildWolfPrompt updatedPack wolf,
              label := pack.name ++ "-" ++ wolf.type ++ "-" ++ strTakeRight wolfId 6,
              model := jsOr wolfConfig.model "anthropic/claude-sonnet-4" },
           reg', some reg') ∧
        wolf.status = "spawned" ∧ wolf.id = wolfId ∧
        wolf.task = wolfConfig.task ∧ wolf.packId = pack.id ∧
        getPack reg' identifier = some updatedPack ∧
        updatedPack.wolves = pack.wolves ++ [wolf] ∧
        updatedPack.stats.wolvesSpawned = pack.stats.wolvesSpawned + 1 ∧
        reg'.totalWolvesSpawned = reg.totalWolvesSpawned + 1 ∧
        reg'.packs.length = reg.packs.length) := by
  constructor
  · intro h
    unfold spawnWolf
    rw [h]
  · intro pack hp
    have hfind : reg.packs.find?
        (fun p => p.id = identifier || p.apiKey = identifier) = some pack := hp
    have hpp := List.find?_some hfind
    refine ⟨spawnedWolf pack wolfConfig wolfId now,
      spawnUpdatedPack pack (spawnedWolf pack wolfConfig wolfId now),
      { reg with
        packs := updateFirst (fun p => p.id = identifier || p.apiKey = identifier)
          (fun p => spawnUpdatedPack p (spawnedWolf pack wolfConfig wolfId now))
          reg.packs,
        totalWolvesSpawned := reg.totalWolvesSpawned + 1 },
      spawnWolf_eq reg identifier wolfConfig wolfId now pack hp,
      rfl, rfl, rfl, rfl, ?_, rfl, rfl, rfl, ?_⟩
    · show (updateFirst (fun p => p.id = identifier || p.apiKey = identifier)
          (fun p => spawnUpdatedPack p (spawnedWolf pack wolfConfig wolfId now))
          reg.packs).find? (fun p => p.id = identifier || p.apiKey = identifier)
        = some (spawnUpdatedPack pack (spawnedWolf pack wolfConfig wolfId now))
      exact find?_updateFirst _ _ _ _ hfind (by simpa using hpp)
    · exact length_updateFirst _ _ _

theorem spawnWolf_spec_witness :
    spawnWolf regEx "missing" { type := "scout", task := "t", model := "" }
      "wolf-9" 5 = (.packNotFound, regEx, none) ∧
    (spawnWolf regEx "pack-1" { type := "", task := "dig", model := "" }
        "wolf-9" 5).2.1.totalWolvesSpawned = 2 := by
  refine ⟨(spawnWolf_spec regEx "missing"
      { type := "scout", task := "t", model := "" } "wolf-9" 5).1 (by decide), ?_⟩
  rcases (spawnWolf_spec regEx "pack-1"
      { type := "", task := "dig", model := "" } "wolf-9" 5).2 packEx (by decide)
    with ⟨wolf, updatedPack, reg', heq, _, _, _, _, _, _, _, htot, _⟩
  rw [heq]
  show reg'.totalWolvesSpawned = 2
  rw [htot]
  decide

/-! ## Claim C5: state files are rewritten wholesale -/

/-- C5: every state-mutating operation ends by writing the full serialization
of the new in-memory state as the complete new file contents (file contents
are modelled by the parsed value they serialize; a performed write is `some`
of the state written).  For each operation, a successful mutation's write
equals the whole new in-memory state; error paths write nothing. -/
theorem wholesale_writes :
    (∀ (reg : Registry) (pc : PackConfig) (pid key : String) (t : Nat),
      (registerPack reg pc pid key t).2.2 = some (registerPack reg pc pid key t).2.1) ∧
    (∀ (reg : Registry) (ident : String) (wc : WolfConfig) (wid : String)
        (now : Nat) (res : SpawnResult) (reg' : Registry) (w : Option Registry),
      spawnWolf reg ident wc wid now = (res, reg', w) →
      (res ≠ .packNotFound → w = some reg') ∧ (res = .packNotFound → w = none)) ∧
    (∀ (reg : Registry) (wolfId txt : String) (now : Nat) (res : HuntResult)
        (reg' : Registry) (w : Option Registry),
      completeHunt reg wolfId txt now = (res, reg', w) →
      (res ≠ .wolfNotFound → w = some reg') ∧ (res = .wolfNotFound → w = none)) ∧
    (∀ (ks : KeysState) (rpc : RpcResult) (sig now rand : String)
        (res : PurchaseResult) (ks' : KeysState) (w : Option KeysState),
      purchaseCredits ks rpc sig now rand = (res, ks', w) →
      ((∀ e, res ≠ .failure e) → w = some ks') ∧ (∀ e, res = .failure e → w = none)) ∧
    (∀ (mk : Option String) (ks : KeysState) (key : Option String) (op : String)
        (res : UseCreditsResult) (ks' : KeysState) (w : Option KeysState),
      useCredits mk ks key op = (res, ks', w) →
      (∀ c rem, res = .ok c rem → w = some ks')) ∧
    (∀ (breg : BountyReg) (bc : BountyConfig) (bid now : String),
      (postBounty breg bc bid now).2.2 = some (postBounty breg bc bid now).2.1) ∧
    (∀ (breg : BountyReg) (bid wid : String) (ww : Option String) (now : String)
        (res : BountyResult) (breg' : BountyReg) (w : Option BountyReg),
      claimBounty breg bid wid ww now = (res, breg', w) →
      (res.success = true → w = some breg') ∧ (res.success = false → w = none)) ∧
    (∀ (breg : BountyReg) (bid vid : String) (approved : Bool) (now : String)
        (res : BountyResult) (breg' : BountyReg) (w : Option BountyReg),
      verifyCompletion breg bid vid approved now = (res, breg', w) →
      (res.success = true → w = some breg') ∧ (res.success = false → w = none)) ∧
    (∀ (s : FeedState) (ty dataJson now : String),
      (feedLog s ty dataJson now).2.2 = some (feedLog s ty dataJson now).2.1) := by
  refine ⟨fun _ _ _ _ _ => rfl, ?_, ?_, ?_, ?_, fun _ _ _ _ => rfl, ?_, ?_,
    fun _ _ _ _ => rfl⟩
  · intro reg ident wc wid now res reg' w h
    unfold spawnWolf at h
    cases hp : getPack reg ident with
    | none =>
      rw [hp] at h
      injection h with h1 h2
      injection h2 with h2 h3
      subst h1; subst h3
      exact ⟨fun hne => absurd rfl hne, fun _ => rfl⟩
    | some pack =>
      rw [hp] at h
      injection h with h1 h2
      injection h2 with h2 h3
      subst h1; subst h2; subst h3
      exact ⟨fun _ => rfl, fun hc => by cases hc⟩
  · intro reg wolfId txt now res reg' w h
    unfold completeHunt at h
    cases hp : completeHuntPacks wolfId txt now reg.packs with
    | none =>
      rw [hp] at h
      injection h with h1 h2
      injection h2 with h2 h3
      subst h1; subst h3
      exact ⟨fun hne => absurd rfl hne, fun _ => rfl⟩
    | some pr =>
      rcases pr with ⟨pid, packs'⟩
      rw [hp] at h
      injection h with h1 h2
      injection h2 with h2 h3
      subst h1; subst h2; subst h3
      exact ⟨fun _ => rfl, fun hc => by cases hc⟩
  · intro ks rpc sig now rand res ks' w h
    unfold purchaseCredits at h
    cases hv : verifyPayment ks rpc sig with
    | invalid e =>
      rw [hv] at h
      injection h with h1 h2
      injection h2 with h2 h3
      subst h1; subst h3
      exact ⟨fun hne => absurd rfl (hne _), fun _ _ => rfl⟩
    | valid amt payer =>
      rw [hv] at h
      dsimp only at h
      by_cases hw : payer = ""
      · rw [if_pos hw] at h
        injection h with h1 h2
        injection h2 with h2 h3
        subst h1; subst h3
        exact ⟨fun hne => absurd rfl (hne _), fun _ _ => rfl⟩
      · rw [if_neg hw] at h
        cases hlook : assocLookup ks.walletToKey payer with
        | some k =>
          rw [hlook] at h
          dsimp only at h
          by_cases hcond : k ≠ "" ∧ (findActive
              { ks with transactions := ks.transactions ++ [sig] } (some k)).isSome
          · rw [if_pos hcond] at h
            injection h with h1 h2
            injection h2 with h2 h3
            subst h1; subst h2; subst h3
            exact ⟨fun _ => rfl, fun e he => by cases he⟩
          · rw [if_neg hcond] at h
            unfold purchaseCredits.purchaseNewKey at h
            injection h with h1 h2
            injection h2 with h2 h3
            subst h1; subst h2; subst h3
            exact ⟨fun _ => rfl, fun e he => by cases he⟩
        | none =>
          rw [hlook] at h
          dsimp only at h
          unfold purchaseCredits.purchaseNewKey at h
          injection h with h1 h2
          injection h2 with h2 h3
          subst h1; subst h2; subst h3
          exact ⟨fun _ => rfl, fun e he => by cases he⟩
  · intro mk ks key op res ks' w h
    unfold useCredits at h
    by_cases hm : isMasterCall mk key = true
    · rw [if_pos hm] at h
      injection h with h1 h2
      injection h2 with h2 h3
      subst h1; subst h3
      exact fun c rem hc => by cases hc
    · rw [if_neg hm] at h
      cases hf : findActive ks key with
      | none =>
        rw [hf] at h
        injection h with h1 h2
        injection h2 with h2 h3
        subst h1; subst h3
        exact fun c rem hc => by cases hc
      | some r =>
        rw [hf] at h
        dsimp only at h
        by_cases hlt : r.credits < costOf op
        · rw [if_pos hlt] at h
          injection h with h1 h2
          injection h2 with h2 h3
          subst h1; subst h3
          exact fun c rem hc => by cases hc
        · rw [if_neg hlt] at h
          injection h with h1 h2
          injection h2 with h2 h3
          subst h1; subst h2; subst h3
          exact fun c rem _ => rfl
  · intro breg bid wid ww now res breg' w h
    unfold claimBounty at h
    cases hb : findBounty breg bid with
    | none =>
      rw [hb] at h
      injection h with h1 h2
      injection h2 with h2 h3
      subst h1; subst h3
      exact ⟨fun hs => by simp [BountyResult.success] at hs, fun _ => rfl⟩
    | some b =>
      rw [hb] at h
      dsimp only at h
      by_cases hst : b.status ≠ "open"
      · rw [if_pos hst] at h
        injection h with h1 h2
        injection h2 with h2 h3
        subst h1; subst h3
        exact ⟨fun hs => by simp [BountyResult.success] at hs, fun _ => rfl⟩
      · rw [if_neg hst] at h
        injection h with h1 h2
        injection h2 with h2 h3
        subst h1; subst h2; subst h3
        exact ⟨fun _ => rfl, fun hs => by simp [BountyResult.success] at hs⟩
  · intro breg bid vid approved now res breg' w h
    unfold verifyCompletion at h
    cases hb : findBounty breg bid with
    | none =>
      rw [hb] at h
      injection h with h1 h2
      injection h2 with h2 h3
      subst h1; subst h3
      exact ⟨fun hs => by simp [BountyResult.success] at hs, fun _ => rfl⟩
    | some b =>
      rw [hb] at h
      dsimp only at h
      by_cases hst : b.status ≠ "pending_verification"
      · rw [if_pos hst] at h
        injection h with h1 h2
        injection h2 with h2 h3
        subst h1; subst h3
        exact ⟨fun hs => by simp [BountyResult.success] at hs, fun _ => rfl⟩
      · rw [if_neg hst] at h
        by_cases hap : approved = true
        · rw [if_pos hap] at h
          injection h with h1 h2
          injection h2 with h2 h3
          subst h1; subst h2; subst h3
          exact ⟨fun _ => rfl, fun hs => by simp [BountyResult.success] at hs⟩
        · rw [if_neg hap] at h
          injection h with h1 h2
          injection h2 with h2 h3
          subst h1; subst h2; subst h3
          exact ⟨fun _ => rfl, fun hs => by simp [BountyResult.success] at hs⟩

theorem wholesale_writes_witness :
    (spawnWolf regEx "pack-1" { type := "", task := "dig", model := "" }
        "wolf-9" 5).2.2 =
      some (spawnWolf regEx "pack-1" { type := "", task := "dig", model := "" }
        "wolf-9" 5).2.1 ∧
    (useCredits none keysEx (some "rml_a") "wolf_spawn").2.2 =
      some (useCredits none keysEx (some "rml_a") "wolf_spawn").2.1 ∧
    (claimBounty bountyRegEx "b1" "wolf-1" none "t1").2.2 =
      some (claimBounty bountyRegEx "b1" "wolf-1" none "t1").2.1 ∧
    (feedLog { events := [], lastId := 0 } "wolf_spawned" "d" "t").2.2 =
      some (feedLog { events := [], lastId := 0 } "wolf_spawned" "d" "t").2.1 := by
  refine ⟨?_, ?_, ?_, wholesale_writes.2.2.2.2.2.2.2.2 _ _ _ _⟩
  · exact (wholesale_writes.2.1 regEx "pack-1"
      { type := "", task := "dig", model := "" } "wolf-9" 5 _ _ _ rfl).1 (by decide)
  · exact wholesale_writes.2.2.2.2.1 none keysEx (some "rml_a") "wolf_spawn"
      _ _ _ rfl 1 4 (by decide)
  · exact (wholesale_writes.2.2.2.2.2.2.1 bountyRegEx "b1" "wolf-1" none "t1"
      _ _ _ rfl).1 (by decide)

/-! ## Claim C7: bounty status lifecycle -/

/-- Lifecycle invariant: a bounty awaiting verification was claimed and has a
submitted proof. -/
def BountyInv (reg : BountyReg) : Prop :=
  ∀ b ∈ reg.bounties, b.status = "pending_verification" →
    b.claimedBy ≠ none ∧ b.proof ≠ none

theorem claimBounty_not_found (reg : BountyReg) (bid wid : String)
    (ww : Option String) (now : String) (h : findBounty reg bid = none) :
    claimBounty reg bid wid ww now = (.failure "bounty not found", reg, none) := by
  unfold claimBounty
  rw [h]

theorem claimBounty_wrong_status (reg : BountyReg) (bid wid : String)
    (ww : Option String) (now : String) (b : Bounty)
    (h : findBounty reg bid = some b) (hs : b.status ≠ "open") :
    claimBounty reg bid wid ww now =
      (.failure ("bounty is " ++ b.status), reg, none) := by
  unfold claimBounty
  rw [h]
  dsimp only
  rw [if_pos hs]

theorem claimBounty_open (reg : BountyReg) (bid wid : String)
    (ww : Option String) (now : String) (b : Bounty)
    (h : findBounty reg bid = some b) (hs : b.status = "open") :
    claimBounty reg bid wid ww now =
      (.ok (claimUpdate wid ww now b),
       { reg with bounties := (updateFirst (fun x => x.id = bid)
           (claimUpdate wid ww now) reg.bounties) },
       some { reg with bounties := (updateFirst (fun x => x.id = bid)
           (claimUpdate wid ww now) reg.bounties) }) := by
  unfold claimBounty
  rw [h]
  dsimp only
  rw [if_neg (by simp [hs])]

theorem submitCompletion_not_found (reg : BountyReg) (bid wid pd : String)
    (pl : List String) (pn now : String) (h : findBounty reg bid = none) :
    submitCompletion reg bid wid pd pl pn now =
      (.failure "bounty not found", reg, none) := by
  unfold submitCompletion
  rw [h]

theorem submitCompletion_wrong_status (reg : BountyReg) (bid wid pd : String)
    (pl : List String) (pn now : String) (b : Bounty)
    (h : findBounty reg bid = some b) (hs : b.status ≠ "claimed") :
    submitCompletion reg bid wid pd pl pn now =
      (.failure ("bounty is " ++ b.status), reg, none) := by
  unfold submitCompletion
  rw [h]
  dsimp only
  rw [if_pos hs]

theorem submitCompletion_wrong_wolf (reg : BountyReg) (bid wid pd : String)
    (pl : List String) (pn now : String) (b : Bounty)
    (h : findBounty reg bid = some b) (hs : b.status = "claimed")
    (hw : b.claimedBy ≠ some wid) :
    submitCompletion reg bid wid pd pl pn now =
      (.failure "not your bounty to complete", reg, none) := by
  unfold submitCompletion
  rw [h]
  dsimp only
  rw [if_neg (by simp [hs]), if_pos hw]

theorem submitCompletion_ok (reg : BountyReg) (bid wid pd : String)
    (pl : List String) (pn now : String) (b : Bounty)
    (h : findBounty reg bid = some b) (hs : b.status = "claimed")
    (hw : b.claimedBy = some wid) :
    submitCompletion reg bid wid pd pl pn now =
      (.ok (submitUpdate pd pl pn now b),
       { reg with bounties := (updateFirst (fun x => x.id = bid)
           (submitUpdate pd pl pn now) reg.bounties) },
       some { reg with bounties := (updateFirst (fun x => x.id = bid)
           (submitUpdate pd pl pn now) reg.bounties) }) := by
  unfold submitCompletion
  rw [h]
  dsimp only
  rw [if_neg (by simp [hs]), if_neg (by simp [hw])]

theorem verifyCompletion_not_found (reg : BountyReg) (bid vid : String)
    (ap : Bool) (now : String) (h : findBounty reg bid = none) :
    verifyCompletion reg bid vid ap now =
      (.failure "bounty not found", reg, none) := by
  unfold verifyCompletion
  rw [h]

theorem verifyCompletion_wrong_status (reg : BountyReg) (bid vid : String)
    (ap : Bool) (now : String) (b : Bounty)
    (h : findBounty reg bid = some b) (hs : b.status ≠ "pending_verification") :
    verifyCompletion reg bid vid ap now =
      (.failure ("bounty is " ++ b.status), reg, none) := by
  unfold verifyCompletion
  rw [h]
  dsimp only
  rw [if_pos hs]

theorem verifyCompletion_approved (reg : BountyReg) (bid vid : String)
    (now : String) (b : Bounty)
    (h : findBounty reg bid = some b) (hs : b.status = "pending_verification") :
    verifyCompletion reg bid vid true now =
      (.ok (approveUpdate vid now b),
       { reg with
         bounties := (updateFirst (fun x => x.id = bid) (approveUpdate vid now)
           reg.bounties),
         totalCompleted := reg.totalCompleted + 1,
         totalPaidOut := reg.totalPaidOut + b.reward },
       some { reg with
         bounties := (updateFirst (fun x => x.id = bid) (approveUpdate vid now)
           reg.bounties),
         totalCompleted := reg.totalCompleted + 1,
         totalPaidOut := reg.totalPaidOut + b.reward }) := by
  unfold verifyCompletion
  rw [h]
  dsimp only
  rw [if_neg (by simp [hs])]
  rfl

theorem verifyCompletion_rejected (reg : BountyReg) (bid vid : String)
    (now : String) (b : Bounty)
    (h : findBounty reg bid = some b) (hs : b.status = "pending_verification") :
    verifyCompletion reg bid vid false now =
      (.ok (disputeUpdate b),
       { reg with bounties := (updateFirst (fun x => x.id = bid) disputeUpdate
           reg.bounties) },
       some { reg with bounties := (updateFirst (fun x => x.id = bid) disputeUpdate
           reg.bounties) }) := by
  unfold verifyCompletion
  rw [h]
  dsimp only
  rw [if_neg (by simp [hs])]
  rfl

/-- Per-bounty part of the lifecycle invariant. -/
def bountyOk (b : Bounty) : Prop :=
  b.status = "pending_verification" → b.claimedBy ≠ none ∧ b.proof ≠ none

theorem updateFirst_bountyOk (l : List Bounty) (p : Bounty → Bool)
    (f : Bounty → Bounty) (a : Bounty) (hfind : l.find? p = some a)
    (hinv : ∀ b ∈ l, bountyOk b) (hf : bountyOk (f a)) :
    ∀ b ∈ updateFirst p f l, bountyOk b :=
  fun b hb => (mem_updateFirst_of_find? p f l b a hfind hb).elim (hinv b)
    (fun he => he ▸ hf)

/-- C7: the bounty lifecycle open → claimed → pending_verification →
(completed | disputed).  `claimBounty` succeeds exactly on an open bounty,
`submitCompletion` exactly on a claimed bounty claimed by this wolf,
`verifyCompletion` exactly on a pending one; every rejected transition
returns an error and leaves the registry unchanged; `totalCompleted` and
`totalPaidOut` move only on an approved verification, whose bounty (under the
lifecycle invariant, which all four operations preserve) had been claimed and
carries a submitted proof. -/
theorem bounty_lifecycle (breg : BountyReg) (bountyId wolfId verifierId : String)
    (wolfWallet : Option String) (proofData : String) (proofLinks : List String)
    (proofNotes : String) (approved : Bool) (now : String) :
    ((claimBounty breg bountyId wolfId wolfWallet now).1.success = true ↔
      ∃ b, findBounty breg bountyId = some b ∧ b.status = "open") ∧
    ((claimBounty breg bountyId wolfId wolfWallet now).1.success = false →
      (claimBounty breg bountyId wolfId wolfWallet now).2.1 = breg ∧
      (claimBounty breg bountyId wolfId wolfWallet now).2.2 = none) ∧
    ((submitCompletion breg bountyId wolfId proofData proofLinks proofNotes
        now).1.success = true ↔
      ∃ b, findBounty breg bountyId = some b ∧ b.status = "claimed" ∧
        b.claimedBy = some wolfId) ∧
    ((submitCompletion breg bountyId wolfId proofData proofLinks proofNotes
        now).1.success = false →
      (submitCompletion breg bountyId wolfId proofData proofLinks proofNotes
        now).2.1 = breg ∧
      (submitCompletion breg bountyId wolfId proofData proofLinks proofNotes
        now).2.2 = none) ∧
    ((verifyCompletion breg bountyId verifierId approved now).1.success = true ↔
      ∃ b, findBounty breg bountyId = some b ∧
        b.status = "pending_verification") ∧
    ((verifyCompletion breg bountyId verifierId approved now).1.success = false →
      (verifyCompletion breg bountyId verifierId approved now).2.1 = breg ∧
      (verifyCompletion breg bountyId verifierId approved now).2.2 = none) ∧
    ((claimBounty breg bountyId wolfId wolfWallet now).2.1.totalCompleted
        = breg.totalCompleted ∧
      (claimBounty breg bountyId wolfId wolfWallet now).2.1.totalPaidOut
        = breg.totalPaidOut) ∧
    ((submitCompletion breg bountyId wolfId proofData proofLinks proofNotes
        now).2.1.totalCompleted = breg.totalCompleted ∧
      (submitCompletion breg bountyId wolfId proofData proofLinks proofNotes
        now).2.1.totalPaidOut = breg.totalPaidOut) ∧
    (approved = false →
      (verifyCompletion breg bountyId verifierId approved now).2.1.totalCompleted
        = breg.totalCompleted ∧
      (verifyCompletion breg bountyId verifierId approved now).2.1.totalPaidOut
        = breg.totalPaidOut) ∧
    (∀ b, findBounty breg bountyId = some b →
      b.status = "pending_verification" → approved = true →
      (verifyCompletion breg bountyId verifierId approved now).2.1.totalCompleted
        = breg.totalCompleted + 1 ∧
      (verifyCompletion breg bountyId verifierId approved now).2.1.totalPaidOut
        = breg.totalPaidOut + b.reward ∧
      (BountyInv breg → b.claimedBy ≠ none ∧ b.proof ≠ none)) ∧
    (∀ (bc : BountyConfig) (bid now2 : String), BountyInv breg →
      BountyInv (postBounty breg bc bid now2).2.1) ∧
    (BountyInv breg →
      BountyInv (claimBounty breg bountyId wolfId wolfWallet now).2.1) ∧
    (BountyInv breg →
      BountyInv (submitCompletion breg bountyId wolfId proofData proofLinks
        proofNotes now).2.1) ∧
    (BountyInv breg →
      BountyInv (verifyCompletion breg bountyId verifierId approved now).2.1) := by
  have hclaim : ∀ P : BountyResult × BountyReg × Option BountyReg → Prop,
      (findBounty breg bountyId = none →
        P (.failure "bounty not found", breg, none)) →
      (∀ b, findBounty breg bountyId = some b → b.status ≠ "open" →
        P (.failure ("bounty is " ++ b.status), breg, none)) →
      (∀ b, findBounty breg bountyId = some b → b.status = "open" →
        P (.ok (claimUpdate wolfId wolfWallet now b),
           { breg with bounties := (updateFirst (fun x => x.id = bountyId)
               (claimUpdate wolfId wolfWallet now) breg.bounties) },
           some { breg with bounties := (updateFirst (fun x => x.id = bountyId)
               (claimUpdate wolfId wolfWallet now) breg.bounties) })) →
      P (claimBounty breg bountyId wolfId wolfWallet now) := by
    intro P h1 h2 h3
    cases hb : findBounty breg bountyId with
    | none => rw [claimBounty_not_found _ _ _ _ _ hb]; exact h1 hb
    | some b =>
      by_cases hs : b.status = "open"
      · rw [claimBounty_open _ _ _ _ _ b hb hs]; exact h3 b hb hs
      · rw [claimBounty_wrong_status _ _ _ _ _ b hb hs]; exact h2 b hb hs
  have hsubmit : ∀ P : BountyResult × BountyReg × Option BountyReg → Prop,
      (findBounty breg bountyId = none →
        P (.failure "bounty not found", breg, none)) →
      (∀ b, findBounty breg bountyId = some b → b.status ≠ "claimed" →
        P (.failure ("bounty is " ++ b.status), breg, none)) →
      (∀ b, findBounty breg bountyId = some b → b.status = "claimed" →
        b.claimedBy ≠ some wolfId →
        P (.failure "not your bounty to complete", breg, none)) →
      (∀ b, findBounty breg bountyId = some b → b.status = "claimed" →
        b.claimedBy = some wolfId →
        P (.ok (submitUpdate proofData proofLinks proofNotes now b),
           { breg with bounties := (updateFirst (fun x => x.id = bountyId)
               (submitUpdate proofData proofLinks proofNotes now) breg.bounties) },
           some { breg with bounties := (updateFirst (fun x => x.id = bountyId)
               (submitUpdate proofData proofLinks proofNotes now)
               breg.bounties) })) →
      P (submitCompletion breg bountyId wolfId proofData proofLinks proofNotes
        now) := by
    intro P h1 h2 h3 h4
    cases hb : findBounty breg bountyId with
    | none => rw [submitCompletion_not_found _ _ _ _ _ _ _ hb]; exact h1 hb
    | some b =>
      by_cases hs : b.status = "claimed"
      · by_cases hw : b.claimedBy = some wolfId
        · rw [submitCompletion_ok _ _ _ _ _ _ _ b hb hs hw]; exact h4 b hb hs hw
        · rw [submitCompletion_wrong_wolf _ _ _ _ _ _ _ b hb hs hw]
          exact h3 b hb hs hw
      · rw [submitCompletion_wrong_status _ _ _ _ _ _ _ b hb hs]
        exact h2 b hb hs
  have hverify : ∀ P : BountyResult × BountyReg × Option BountyReg → Prop,
      (findBounty breg bountyId = none →
        P (.failure "bounty not found", breg, none)) →
      (∀ b, findBounty breg bountyId = some b →
        b.status ≠ "pending_verification" →
        P (.failure ("bounty is " ++ b.status), breg, none)) →
      (∀ b, findBounty breg bountyId = some b →
        b.status = "pending_verification" → approved = true →
        P (.ok (approveUpdate verifierId now b),
           { breg with
             bounties := (updateFirst (fun x => x.id = bountyId)
               (approveUpdate verifierId now) breg.bounties),
             totalCompleted := breg.totalCompleted + 1,
             totalPaidOut := breg.totalPaidOut + b.reward },
           some { breg with
             bounties := (updateFirst (fun x => x.id = bountyId)
               (approveUpdate verifierId now) breg.bounties),
             totalCompleted := breg.totalCompleted + 1,
             totalPaidOut := breg.totalPaidOut + b.reward })) →
      (∀ b, findBounty breg bountyId = some b →
        b.status = "pending_verification" → approved = false →
        P (.ok (disputeUpdate b),
           { breg with bounties := (updateFirst (fun x => x.id = bountyId)
               disputeUpdate breg.bounties) },
           some { breg with bounties := (updateFirst (fun x => x.id = bountyId)
               disputeUpdate breg.bounties) })) →
      P (verifyCompletion breg bountyId verifierId approved now) := by
    intro P h1 h2 h3 h4
    cases hb : findBounty breg bountyId with
    | none => rw [verifyCompletion_not_found _ _ _ _ _ hb]; exact h1 hb
    | some b =>
      by_cases hs : b.status = "pending_verification"
      · cases approved with
        | true => rw [verifyCompletion_approved _ _ _ _ b hb hs]; exact h3 b hb hs rfl
        | false => rw [verifyCompletion_rejected _ _ _ _ b hb hs]; exact h4 b hb hs rfl
      · rw [verifyCompletion_wrong_status _ _ _ _ _ b hb hs]; exact h2 b hb hs
  refine ⟨?_, ?_, ?_, ?_, ?_, ?_, ?_, ?_, ?_, ?_, ?_, ?_, ?_, ?_⟩
  · constructor
    · refine hclaim (fun t => t.1.success = true →
        ∃ b, findBounty breg bountyId = some b ∧ b.status = "open")
        ?_ ?_ ?_
      · intro _ hs; simp [BountyResult.success] at hs
      · intro b _ _ hs; simp [BountyResult.success] at hs
      · intro b hb hs _; exact ⟨b, hb, hs⟩
    · rintro ⟨b, hb, hs⟩
      rw [claimBounty_open _ _ _ _ _ b hb hs]
      rfl
  · refine hclaim (fun t => t.1.success = false → t.2.1 = breg ∧ t.2.2 = none)
      ?_ ?_ ?_
    · intro _ _; exact ⟨rfl, rfl⟩
    · intro b _ _ _; exact ⟨rfl, rfl⟩
    · intro b _ _ hs; simp [BountyResult.success] at hs
  · constructor
    · refine hsubmit (fun t => t.1.success = true →
        ∃ b, findBounty breg bountyId = some b ∧ b.status = "claimed" ∧
          b.claimedBy = some wolfId) ?_ ?_ ?_ ?_
      · intro _ hs; simp [BountyResult.success] at hs
      · intro b _ _ hs; simp [BountyResult.success] at hs
      · intro b _ _ _ hs; simp [BountyResult.success] at hs
      · intro b hb hs hw _; exact ⟨b, hb, hs, hw⟩
    · rintro ⟨b, hb, hs, hw⟩
      rw [submitCompletion_ok _ _ _ _ _ _ _ b hb hs hw]
      rfl
  · refine hsubmit (fun t => t.1.success = false → t.2.1 = breg ∧ t.2.2 = none)
      ?_ ?_ ?_ ?_
    · intro _ _; exact ⟨rfl, rfl⟩
    · intro b _ _ _; exact ⟨rfl, rfl⟩
    · intro b _ _ _ _; exact ⟨rfl, rfl⟩
    · intro b _ _ _ hs; simp [BountyResult.success] at hs
  · constructor
    · refine hverify (fun t => t.1.success = true →
        ∃ b, findBounty breg bountyId = some b ∧
          b.status = "pending_verification") ?_ ?_ ?_ ?_
      · intro _ hs; simp [BountyResult.success] at hs
      · intro b _ _ hs; simp [BountyResult.success] at hs
      · intro b hb hs _ _; exact ⟨b, hb, hs⟩
      · intro b hb hs _ _; exact ⟨b, hb, hs⟩
    · rintro ⟨b, hb, hs⟩
      cases approved with
      | true => rw [verifyCompletion_approved _ _ _ _ b hb hs]; rfl
      | false => rw [verifyCompletion_rejected _ _ _ _ b hb hs]; rfl
  · refine hverify (fun t => t.1.success = false → t.2.1 = breg ∧ t.2.2 = none)
      ?_ ?_ ?_ ?_
    · intro _ _; exact ⟨rfl, rfl⟩
    · intro b _ _ _; exact ⟨rfl, rfl⟩
    · intro b _ _ _ hs; simp [BountyResult.success] at hs
    · intro b _ _ _ hs; simp [BountyResult.success] at hs
  · refine hclaim (fun t => t.2.1.totalCompleted = breg.totalCompleted ∧
      t.2.1.totalPaidOut = breg.totalPaidOut) ?_ ?_ ?_
    · intro _; exact ⟨rfl, rfl⟩
    · intro b _ _; exact ⟨rfl, rfl⟩
    · intro b _ _; exact ⟨rfl, rfl⟩
  · refine hsubmit (fun t => t.2.1.totalCompleted = breg.totalCompleted ∧
      t.2.1.totalPaidOut = breg.totalPaidOut) ?_ ?_ ?_ ?_
    · intro _; exact ⟨rfl, rfl⟩
    · intro b _ _; exact ⟨rfl, rfl⟩
    · intro b _ _ _; exact ⟨rfl, rfl⟩
    · intro b _ _ _; exact ⟨rfl, rfl⟩
  · intro hap
    subst hap
    refine hverify (fun t => t.2.1.totalCompleted = breg.totalCompleted ∧
      t.2.1.totalPaidOut = breg.totalPaidOut) ?_ ?_ ?_ ?_
    · intro _; exact ⟨rfl, rfl⟩
    · intro b _ _; exact ⟨rfl, rfl⟩
    · intro b _ _ hap; cases hap
    · intro b _ _ _; exact ⟨rfl, rfl⟩
  · intro b hb hs hap
    subst hap
    rw [verifyCompletion_approved _ _ _ _ b hb hs]
    refine ⟨rfl, rfl, ?_⟩
    intro hinv
    exact hinv b (List.mem_of_find?_eq_some hb) hs
  · intro bc bid now2 hinv
    intro b hb
    rcases List.mem_append.mp (show b ∈ breg.bounties ++ [_] from hb) with h1 | h2
    · exact hinv b h1
    · rw [List.mem_singleton.mp h2]
      intro hpend
      exact absurd hpend (by decide : ¬ ("open" : String) = "pending_verification")
  · intro hinv
    refine hclaim (fun t => BountyInv t.2.1) ?_ ?_ ?_
    · intro _; exact hinv
    · intro b _ _; exact hinv
    · intro b hb _
      exact updateFirst_bountyOk breg.bounties _ _ b hb hinv
        (fun hpend => absurd hpend
          (by decide : ¬ ("claimed" : String) = "pending_verification"))
  · intro hinv
    refine hsubmit (fun t => BountyInv t.2.1) ?_ ?_ ?_ ?_
    · intro _; exact hinv
    · intro b _ _; exact hinv
    · intro b _ _ _; exact hinv
    · intro b hb _ hw
      refine updateFirst_bountyOk breg.bounties _ _ b hb hinv ?_
      intro _
      refine ⟨?_, ?_⟩
      · show b.claimedBy ≠ none
        rw [hw]
        exact Option.some_ne_none _
      · exact Option.some_ne_none _
  · intro hinv
    refine hverify (fun t => BountyInv t.2.1) ?_ ?_ ?_ ?_
    · intro _; exact hinv
    · intro b _ _; exact hinv
    · intro b hb _ _
      exact updateFirst_bountyOk breg.bounties _ _ b hb hinv
        (fun hpend => absurd hpend
          (by decide : ¬ ("completed" : String) = "pending_verification"))
    · intro b hb _ _
      exact updateFirst_bountyOk breg.bounties _ _ b hb hinv
        (fun hpend => absurd hpend
          (by decide : ¬ ("disputed" : String) = "pending_verification"))

theorem bounty_lifecycle_witness :
    (claimBounty bountyRegEx "b1" "wolf-1" none "t1").1.success = true ∧
    (submitCompletion bountyRegEx "b1" "wolf-1" "d" [] "" "t1").1.success = false ∧
    (submitCompletion bountyRegEx "b1" "wolf-1" "d" [] "" "t1").2.1 = bountyRegEx ∧
    (verifyCompletion bountyRegEx "b1" "admin" true "t1").1.success = false ∧
    (claimBounty bountyRegEx "b1" "wolf-1" none "t1").2.1.totalCompleted = 0 ∧
    BountyInv (claimBounty bountyRegEx "b1" "wolf-1" none "t1").2.1 := by
  have h := bounty_lifecycle bountyRegEx "b1" "wolf-1" "admin" none "d" [] ""
    true "t1"
  refine ⟨h.1.mpr ⟨bountyEx, by decide, by decide⟩, ?_, ?_, ?_, ?_, ?_⟩
  · decide
  · exact (h.2.2.2.1 (by decide)).1
  · decide
  · rw [(h.2.2.2.2.2.2.1).1]
    rfl
  · refine h.2.2.2.2.2.2.2.2.2.2.2.1 ?_
    intro b hb hpend
    have : b = bountyEx := by
      rcases List.mem_singleton.mp hb with h2
      exact h2
    rw [this] at hpend
    exact absurd hpend (by decide)

/-! ## Claim C2: the ledger is keyed by wallet and transaction signature -/

/-- The wallet-keying invariant of the keys file: every issued record has a
nonempty API key, and every active record is indexed under its payer wallet
in `walletToKey`.  `loadKeys` establishes it by migration on load;
`purchaseCredits` preserves it. -/
def LedgerInv (ks : KeysState) : Prop :=
  ∀ r ∈ ks.issued, r.apiKey ≠ "" ∧
    (r.status = "active" →
      assocLookup ks.walletToKey r.payerWallet = some r.apiKey)

theorem ledgerInv_wallet_unique (ks : KeysState) (hinv : LedgerInv ks) :
    ∀ r1 ∈ ks.issued, ∀ r2 ∈ ks.issued, r1.status = "active" →
      r2.status = "active" → r1.payerWallet = r2.payerWallet →
      r1.apiKey = r2.apiKey := by
  intro r1 h1 r2 h2 ha1 ha2 hw
  have k1 := (hinv r1 h1).2 ha1
  have k2 := (hinv r2 h2).2 ha2
  rw [hw] at k1
  rw [k1] at k2
  exact Option.some_inj.mp k2

theorem rml_key_ne_empty (rand : String) : ("rml_" ++ rand) ≠ "" := by
  intro h
  have h2 := congrArg String.length h
  rw [String.length_append] at h2
  rw [show ("rml_" : String).length = 4 from rfl,
    show ("" : String).length = 0 from rfl] at h2
  omega

theorem verifyPayment_alreadyUsed (ks : KeysState) (rpc : RpcResult)
    (sig : String) (hc : ks.transactions.contains sig = true) :
    verifyPayment ks rpc sig = .invalid .alreadyUsed := by
  unfold verifyPayment
  rw [if_pos hc]

theorem purchaseCredits_invalid_eq (ks : KeysState) (rpc : RpcResult)
    (sig now rand : String) (e : VerifyError)
    (hv : verifyPayment ks rpc sig = .invalid e) :
    purchaseCredits ks rpc sig now rand = (.failure e.message, ks, none) := by
  unfold purchaseCredits
  rw [hv]

theorem purchaseCredits_nopayer_eq (ks : KeysState) (rpc : RpcResult)
    (sig now rand : String) (amt : Int)
    (hv : verifyPayment ks rpc sig = .valid amt "") :
    purchaseCredits ks rpc sig now rand =
      (.failure "Could not determine payer wallet from transaction", ks, none) := by
  unfold purchaseCredits
  rw [hv]
  dsimp only
  rw [if_pos rfl]

/-- The keys state after the auto-top-up branch. -/
def topUpState (ks : KeysState) (amt : Int) (k sig now : String) : KeysState :=
  { ks with
    transactions := ks.transactions ++ [sig],
    issued := (updateFirst
      (fun r => some k = some r.apiKey && r.status = "active")
      (topUpRecord (creditsFromLamports amt) amt sig now) ks.issued),
    txToKey := assocSet ks.txToKey sig k }

/-- The keys state after the new-wallet branch. -/
def newKeyState (ks : KeysState) (amt : Int) (payer sig now rand : String) :
    KeysState :=
  { ks with
    transactions := ks.transactions ++ [sig],
    issued := ks.issued ++
      [newKeyRecord (creditsFromLamports amt) amt payer sig now rand],
    walletToKey := assocSet ks.walletToKey payer ("rml_" ++ rand),
    txToKey := assocSet ks.txToKey sig ("rml_" ++ rand) }

theorem purchaseCredits_topup_eq (ks : KeysState) (rpc : RpcResult)
    (sig now rand : String) (amt : Int) (payer k : String)
    (hv : verifyPayment ks rpc sig = .valid amt payer) (hp : payer ≠ "")
    (hk : assocLookup ks.walletToKey payer = some k) (hk0 : k ≠ "")
    (hfa : (findActive ks (some k)).isSome = true) :
    purchaseCredits ks rpc sig now rand =
      (.purchased k (creditsFromLamports amt) false,
       topUpState ks amt k sig now, some (topUpState ks amt k sig now)) := by
  unfold purchaseCredits
  rw [hv]
  dsimp only
  rw [if_neg hp]
  rw [show assocLookup ks.walletToKey payer = some k from hk]
  dsimp only
  rw [if_pos (show k ≠ "" ∧ (findActive
    { ks with transactions := ks.transactions ++ [sig] } (some k)).isSome = true
    from ⟨hk0, hfa⟩)]
  rfl

theorem purchaseCredits_newkey_none_eq (ks : KeysState) (rpc : RpcResult)
    (sig now rand : String) (amt : Int) (payer : String)
    (hv : verifyPayment ks rpc sig = .valid amt payer) (hp : payer ≠ "")
    (hk : assocLookup ks.walletToKey payer = none) :
    purchaseCredits ks rpc sig now rand =
      (.purchased ("rml_" ++ rand) (creditsFromLamports amt) true,
       newKeyState ks amt payer sig now rand,
       some (newKeyState ks amt payer sig now rand)) := by
  unfold purchaseCredits
  rw [hv]
  dsimp only
  rw [if_neg hp]
  rw [show assocLookup ks.walletToKey payer = none from hk]
  rfl

theorem purchaseCredits_newkey_some_eq (ks : KeysState) (rpc : RpcResult)
    (sig now rand : String) (amt : Int) (payer k : String)
    (hv : verifyPayment ks rpc sig = .valid amt payer) (hp : payer ≠ "")
    (hk : assocLookup ks.walletToKey payer = some k)
    (hcond : ¬ (k ≠ "" ∧ (findActive ks (some k)).isSome = true)) :
    purchaseCredits ks rpc sig now rand =
      (.purchased ("rml_" ++ rand) (creditsFromLamports amt) true,
       newKeyState ks amt payer sig now rand,
       some (newKeyState ks amt payer sig now rand)) := by
  unfold purchaseCredits
  rw [hv]
  dsimp only
  rw [if_neg hp]
  rw [show assocLookup ks.walletToKey payer = some k from hk]
  dsimp only
  rw [if_neg (show ¬ (k ≠ "" ∧ (findActive
    { ks with transactions := ks.transactions ++ [sig] } (some k)).isSome = true)
    from hcond)]
  rfl

theorem ledgerInv_topup (ks : KeysState) (amt : Int) (k sig now : String)
    (hinv : LedgerInv ks) (hfa : (findActive ks (some k)).isSome = true) :
    LedgerInv (topUpState ks amt k sig now) := by
  intro r' hr'
  rcases Option.isSome_iff_exists.mp hfa with ⟨a, ha⟩
  have ha' : ks.issued.find?
      (fun r => some k = some r.apiKey && r.status = "active") = some a := ha
  rcases mem_updateFirst_of_find? _ _ _ r' a ha' hr' with h1 | h2
  · exact hinv r' h1
  · have hain := List.mem_of_find?_eq_some ha'
    rcases hinv a hain with ⟨hne, hact⟩
    subst h2
    exact ⟨hne, hact⟩

theorem ledgerInv_newkey (ks : KeysState) (amt : Int)
    (payer sig now rand : String) (hinv : LedgerInv ks)
    (hnoactive : ∀ r ∈ ks.issued, r.status = "active" →
      r.payerWallet ≠ payer) :
    LedgerInv (newKeyState ks amt payer sig now rand) := by
  intro r' hr'
  rcases List.mem_append.mp hr' with h1 | h2
  · refine ⟨(hinv r' h1).1, ?_⟩
    intro hact
    show assocLookup (assocSet ks.walletToKey payer ("rml_" ++ rand))
      r'.payerWallet = some r'.apiKey
    rw [assocLookup_assocSet_ne _ _ _ _ (hnoactive r' h1 hact)]
    exact (hinv r' h1).2 hact
  · rw [List.mem_singleton.mp h2]
    refine ⟨rml_key_ne_empty rand, ?_⟩
    intro _
    exact assocLookup_assocSet_self ks.walletToKey payer ("rml_" ++ rand)

/-- From the branch conditions of the new-key path: no active record holds
the payer wallet. -/
theorem newkey_path_no_active (ks : KeysState) (payer : String)
    (hinv : LedgerInv ks)
    (hpath : assocLookup ks.walletToKey payer = none ∨
      ∃ k, assocLookup ks.walletToKey payer = some k ∧
        ¬ (k ≠ "" ∧ (findActive ks (some k)).isSome = true)) :
    ∀ r ∈ ks.issued, r.status = "active" → r.payerWallet ≠ payer := by
  intro r hr hact hw
  have hlook := (hinv r hr).2 hact
  rw [hw] at hlook
  rcases hpath with h1 | ⟨k, hk, hcond⟩
  · rw [h1] at hlook; cases hlook
  · rw [hk] at hlook
    have hkr : k = r.apiKey := Option.some_inj.mp hlook
    rcases not_and_or.mp hcond with hke | hfa
    · exact (hinv r hr).1 (hkr ▸ (not_not.mp hke) : r.apiKey = "")
    · have hnone : findActive ks (some k) = none :=
        Option.not_isSome_iff_eq_none.mp (fun hs => hfa hs)
      have hforall := List.find?_eq_none.mp hnone r hr
      apply hforall
      simp [hkr, hact]

/-- C2: the ledger is keyed by wallet and transaction signature.  A
transaction signature already recorded in `transactions` is rejected with
`Transaction already used`; a payment whose payer wallet already maps to an
active key adds the credits to that key (no new record is issued); the
wallet-keying invariant is preserved, so each payer wallet maps to at most
one active API key. -/
theorem purchase_ledger_keying (ks : KeysState) (rpc : RpcResult)
    (sig now rand : String) :
    (ks.transactions.contains sig = true →
      purchaseCredits ks rpc sig now rand =
        (.failure "Transaction already used", ks, none)) ∧
    (∀ amt payer k r,
      verifyPayment ks rpc sig = .valid amt payer → payer ≠ "" →
      assocLookup ks.walletToKey payer = some k → k ≠ "" →
      findActive ks (some k) = some r →
      (purchaseCredits ks rpc sig now rand).1 =
        .purchased k (creditsFromLamports amt) false ∧
      (purchaseCredits ks rpc sig now rand).2.1.issued.length
        = ks.issued.length ∧
      (findActive (purchaseCredits ks rpc sig now rand).2.1 (some k)).map
          (·.credits) = some (r.credits + creditsFromLamports amt)) ∧
    (LedgerInv ks → LedgerInv (purchaseCredits ks rpc sig now rand).2.1) ∧
    (LedgerInv ks →
      ∀ r1 ∈ (purchaseCredits ks rpc sig now rand).2.1.issued,
      ∀ r2 ∈ (purchaseCredits ks rpc sig now rand).2.1.issued,
        r1.status = "active" → r2.status = "active" →
        r1.payerWallet = r2.payerWallet → r1.apiKey = r2.apiKey) := by
  have hpres : LedgerInv ks →
      LedgerInv (purchaseCredits ks rpc sig now rand).2.1 := by
    intro hinv
    cases hv : verifyPayment ks rpc sig with
    | invalid e =>
      rw [purchaseCredits_invalid_eq ks rpc sig now rand e hv]
      exact hinv
    | valid amt payer =>
      by_cases hp : payer = ""
      · subst hp
        rw [purchaseCredits_nopayer_eq ks rpc sig now rand amt hv]
        exact hinv
      · cases hk : assocLookup ks.walletToKey payer with
        | none =>
          rw [purchaseCredits_newkey_none_eq ks rpc sig now rand amt payer hv hp hk]
          exact ledgerInv_newkey ks amt payer sig now rand hinv
            (newkey_path_no_active ks payer hinv (Or.inl hk))
        | some k =>
          by_cases hcond : k ≠ "" ∧ (findActive ks (some k)).isSome = true
          · rw [purchaseCredits_topup_eq ks rpc sig now rand amt payer k hv hp
              hk hcond.1 hcond.2]
            exact ledgerInv_topup ks amt k sig now hinv hcond.2
          · rw [purchaseCredits_newkey_some_eq ks rpc sig now rand amt payer k
              hv hp hk hcond]
            exact ledgerInv_newkey ks amt payer sig now rand hinv
              (newkey_path_no_active ks payer hinv (Or.inr ⟨k, hk, hcond⟩))
  refine ⟨?_, ?_, hpres, ?_⟩
  · intro hc
    rw [purchaseCredits_invalid_eq ks rpc sig now rand .alreadyUsed
      (verifyPayment_alreadyUsed ks rpc sig hc)]
    rfl
  · intro amt payer k r hv hp hk hk0 hfr
    have hfa : (findActive ks (some k)).isSome = true := by rw [hfr]; rfl
    rw [purchaseCredits_topup_eq ks rpc sig now rand amt payer k hv hp hk hk0 hfa]
    refine ⟨rfl, length_updateFirst _ _ _, ?_⟩
    have hfr' : ks.issued.find?
        (fun rr => some k = some rr.apiKey && rr.status = "active") = some r := hfr
    have hpr := List.find?_some hfr'
    have hnew : (topUpState ks amt k sig now).issued.find?
        (fun rr => some k = some rr.apiKey && rr.status = "active") =
        some (topUpRecord (creditsFromLamports amt) amt sig now r) :=
      find?_updateFirst _ _ _ _ hfr' (by simpa using hpr)
    show ((topUpState ks amt k sig now).issued.find?
        (fun rr => some k = some rr.apiKey && rr.status = "active")).map
        (·.credits) = _
    rw [hnew]
    rfl
  · intro hinv
    exact ledgerInv_wallet_unique _ (hpres hinv)

/-- An RPC answer carrying a 0.1 SOL transfer from wallet `W1` to the
treasury. -/
def rpcEx : RpcResult :=
  .tx false [0, 0] [0, 100000000] ["W1", TREASURY_WALLET]

theorem purchase_ledger_keying_witness :
    purchaseCredits keysEx .noResult "sigA" "t" "zz" =
      (.failure "Transaction already used", keysEx, none) ∧
    (purchaseCredits keysEx rpcEx "sigB" "t2" "zz").1 =
      .purchased "rml_a" 50 false ∧
    (purchaseCredits keysEx rpcEx "sigB" "t2" "zz").2.1.issued.length = 1 ∧
    (findActive (purchaseCredits keysEx rpcEx "sigB" "t2" "zz").2.1
      (some "rml_a")).map (·.credits) = some 55 := by
  have h1 := (purchase_ledger_keying keysEx .noResult "sigA" "t" "zz").1 (by decide)
  have htop := (purchase_ledger_keying keysEx rpcEx "sigB" "t2" "zz").2.1
    100000000 "W1" "rml_a" recEx (by decide) (by decide) (by decide) (by decide)
    (by decide)
  refine ⟨h1, ?_, ?_, ?_⟩
  · rw [htop.1]; decide
  · rw [htop.2.1]
    rfl
  · rw [htop.2.2]; decide

/-! ## Claim C1: which authenticated calls deduct credits -/

/-- Did the bounty route succeed with a created bounty? -/
def RouteResponse.isCreatedBounty : RouteResponse → Bool
  | .createdBounty (.ok _) => true
  | _ => false

/-- C1 counterexample: an API call made with a paid (non-master) API key to
`POST /bounties` is authenticated and succeeds, yet the caller's stored
credit counter is unchanged (still 5), not lower by the operation's cost
(`COSTS.bounty_post = 1`) as the claim requires. -/
theorem paid_bounty_post_no_deduction_cex :
    (checkAuth true none keysEx hdrsEx).ok = true ∧
    (routePostBounty true none keysEx bountyRegEx hdrsEx
      (some bountyConfigEx) "b2" "t2").1.isCreatedBounty = true ∧
    (findActive keysEx (some "rml_a")).map (·.credits) = some 5 ∧
    (findActive (routePostBounty true none keysEx bountyRegEx hdrsEx
      (some bountyConfigEx) "b2" "t2").2.1 (some "rml_a")).map (·.credits)
      = some 5 ∧
    costOf "bounty_post" = 1 ∧
    (5 : Int) ≠ 5 - costOf "bounty_post" := by
  refine ⟨by decide, by decide, by decide, by decide, by decide, by decide⟩

/-- C1 (amended): only the wolf-spawn endpoint deducts credits.  A request to
`POST /bounties` never changes the keys state and never writes the keys file,
whatever the key; a paid-key request to `POST /wolves/spawn` that passes the
credit check leaves the keys state deducted by exactly the `wolf_spawn` cost. -/
theorem credit_deduction_only_spawn (requireAuth : Bool) (mk : Option String)
    (ks : KeysState) (reg : Registry) (breg : BountyReg) (h : Headers)
    (wolfId : String) (now : Nat) (bountyId bnow : String) :
    (∀ body,
      (routePostBounty requireAuth mk ks breg h body bountyId bnow).2.1 = ks ∧
      (routePostBounty requireAuth mk ks breg h body bountyId bnow).2.2.1
        = none) ∧
    (∀ r body, isMasterCall mk (routeApiKey h) = false →
      findActive ks (routeApiKey h) = some r →
      ¬ r.credits < costOf "wolf_spawn" →
      (checkAuth requireAuth mk ks h).ok = true →
      (routeWolvesSpawn requireAuth mk ks reg h body wolfId now).2.1 =
        deductState ks (routeApiKey h) (costOf "wolf_spawn") ∧
      findActive (routeWolvesSpawn requireAuth mk ks reg h body wolfId now).2.1
          (routeApiKey h) =
        some { r with credits := r.credits - costOf "wolf_spawn",
                      totalUsed := r.totalUsed + costOf "wolf_spawn" }) := by
  constructor
  · intro body
    unfold routePostBounty
    by_cases hauth : (checkAuth requireAuth mk ks h).ok = true
    · rw [if_neg (by simp [hauth])]
      cases body with
      | none => exact ⟨rfl, rfl⟩
      | some bc =>
        dsimp only
        by_cases hb : bc.title = "" || bc.description = ""
        · rw [if_pos hb]
          exact ⟨rfl, rfl⟩
        · rw [if_neg hb]
          exact ⟨rfl, rfl⟩
    · rw [if_pos (by simpa using hauth)]
      exact ⟨rfl, rfl⟩
  · intro r body hm hf hge hauth
    have huse := (useCredits_atomic mk ks (routeApiKey h) "wolf_spawn").2.2.1
      r hm hf hge
    have hroute : (routeWolvesSpawn requireAuth mk ks reg h body wolfId
        now).2.1 = deductState ks (routeApiKey h) (costOf "wolf_spawn") := by
      unfold routeWolvesSpawn
      rw [if_neg (by simp [hauth])]
      dsimp only
      rw [huse.1]
      dsimp only [UseCreditsResult.success]
      rw [if_neg (by decide)]
      cases body with
      | none => rfl
      | some pw =>
        rcases pw with ⟨packId, wc⟩
        dsimp only
        rcases hsw : spawnWolf reg packId wc wolfId now with ⟨res, reg2, w2⟩
        cases res with
        | packNotFound => rfl
        | spawned a b c d => rfl
    refine ⟨hroute, ?_⟩
    rw [hroute]
    exact findActive_deductState ks (routeApiKey h) (costOf "wolf_spawn") r hf

theorem credit_deduction_only_spawn_witness :
    (routePostBounty true none keysEx bountyRegEx hdrsEx
      (some bountyConfigEx) "b2" "t2").2.1 = keysEx ∧
    (routeWolvesSpawn true none keysEx regEx hdrsEx
      (some ("pack-1", { type := "", task := "dig", model := "" })) "wolf-9"
      5).2.1 = deductState keysEx (routeApiKey hdrsEx) (costOf "wolf_spawn") ∧
    (findActive (routeWolvesSpawn true none keysEx regEx hdrsEx
      (some ("pack-1", { type := "", task := "dig", model := "" })) "wolf-9"
      5).2.1 (routeApiKey hdrsEx)).map (·.credits) = some 4 := by
  have h := credit_deduction_only_spawn true none keysEx regEx bountyRegEx
    hdrsEx "wolf-9" 5 "b2" "t2"
  have hspawn := h.2 recEx
    (some ("pack-1", { type := "", task := "dig", model := "" }))
    (by decide) (by decide) (by decide) (by decide)
  refine ⟨(h.1 (some bountyConfigEx)).1, hspawn.1, ?_⟩
  rw [hspawn.2]
  decide

end Romulus
